import Mathlib

/-!
Shared-memory manager: `kern/shared_memory_manager.c`.

A shallow embedding of the kernel's shared-object registry and of the
create / get / free operations built on it, followed by theorems about them.

Conventions of the embedding

* The global kernel state (`shares`, `MAX_SHARES`, `curenv`, the frame backend
  and the kernel heap) is one record, `Kernel`, passed explicitly.
* A call returns `Except Fault (result × Kernel)`: `Fault.panic` is a call of
  `panic(...)` (the call never returns), the other faults are accesses that C
  leaves undefined (outside the `shares` table, through a NULL frame pointer,
  past the end of the `name` field).
* Constants that the source takes from its headers (`inc/mmu.h`, `inc/error.h`,
  the declaration of `struct Share`) are the fields of `Config`; a theorem names
  the facts about them that it needs as hypotheses.
* `uint32` arithmetic is arithmetic on `Nat` reduced modulo `2 ^ 32`.
-/

namespace SharedMemory

/-! Data model -/

/-- Ways in which a call fails to return. -/
inductive Fault where
  /-- The kernel called `panic(...)`. -/
  | panic
  /-- An access to `shares[i]` outside the allocated table (or with `shares == NULL`). -/
  | outOfBounds
  /-- A dereference of a NULL pointer. -/
  | nullDeref
  /-- A `strcpy` past the end of the `name` field. -/
  | bufferOverflow
deriving DecidableEq

/-- One slot of the `shares` array (`struct Share`). A C string is the list of its
characters before the terminating NUL; `framesStorage` is represented by its content,
the map from page index to frame (`none` is a NULL entry). -/
structure Share where
  ownerID : Int
  name : List Nat
  framesStorage : Nat → Option Nat
  size : Nat
  references : Nat
  isWritable : Nat
  empty : Nat

/-- The slot produced by `memset(&shares[i], 0, sizeof(struct Share))`. -/
def Share.zero : Share :=
  { ownerID := 0, name := [], framesStorage := fun _ => none, size := 0,
    references := 0, isWritable := 0, empty := 0 }

/-- One call of `map_frame(dir, frame, va, perm)`. -/
structure Mapping where
  dir : Nat
  frame : Option Nat
  va : Nat
  perm : Nat
deriving DecidableEq

/-- Values the source takes from its headers. `NAME_SIZE` is the size in bytes of the
`name` field, `SHARE_SIZE` is `sizeof(struct Share)`, `uninit i` is the
content of an uninitialised heap slot at index `i`. -/
structure Config where
  PERM_WRITEABLE : Nat
  PERM_USER : Nat
  USE_KHEAP : Nat
  E_SHARED_MEM_NOT_EXISTS : Int
  E_SHARED_MEM_EXISTS : Int
  E_NO_SHARE : Int
  NAME_SIZE : Nat
  SHARE_SIZE : Nat
  uninit : Nat → Share

/-- Modelled from the spec: `PAGE_SIZE` is defined in `inc/mmu.h`, which is missing; the
spec's example scenario rounds 4097 bytes to 2 pages (8192 bytes), so a page has 4096 bytes. -/
def PAGE_SIZE : Nat := 4096

/-- The kernel state the manager reads and writes.

* `shares`, `MAX_SHARES`: the two globals of the registry; the list holds the slots that
  lie inside the allocated block (`shares == NULL` is the empty list).
* `curenv`: the calling environment, identified with its page directory.
* `freeFrames`: the frame backend's free list.
* `frameRefs`: the `references` field of every `struct Frame_Info`.
* `mappings`: the calls of `map_frame` made so far, oldest first.
* `heap`: the answers of the kernel heap to the next allocation requests
  (`true`: the request is served). -/
structure Kernel where
  shares : List Share
  MAX_SHARES : Nat
  curenv : Nat
  freeFrames : List Nat
  frameRefs : Nat → Nat
  mappings : List Mapping
  heap : List Bool

/-! Collaborators: the frame backend, the kernel heap and the helpers of the headers -/

/-- Modelled from the spec: `ROUNDUP(a, n)` comes from a missing header. The spec says
"round `requestedSize` up to a whole number of pages"; on `uint32` operands this is
`a + n - 1` reduced modulo `2 ^ 32` and then rounded down to a multiple of `n`. -/
def ROUNDUP (a n : Nat) : Nat :=
  (a + n - 1) % 2 ^ 32 - ((a + n - 1) % 2 ^ 32) % n

/-- Modelled from the spec: `allocate_frame` belongs to the frame backend ("allocates
physical frames"). It hands out the first frame of the free list; with an empty free list
it fails and the caller's frame pointer stays NULL. -/
def allocate_frame (k : Kernel) : Option Nat × Kernel :=
  match k.freeFrames with
  | [] => (none, k)
  | f :: rest => (some f, { k with freeFrames := rest })

/-- Modelled from the spec: `map_frame` belongs to the frame backend ("installs
virtual-to-physical mappings with permission bits"). The call is recorded. -/
def map_frame (k : Kernel) (dir : Nat) (frm : Option Nat) (va perm : Nat) : Kernel :=
  { k with mappings := k.mappings ++ [{ dir := dir, frame := frm, va := va, perm := perm }] }

/-- Modelled from the spec: `add_frame_to_storage` is missing; the Frame-Storage Index is
"the per-region array mapping logical page offset to physical frame handle", and the call
records the frame handle at position `i`. -/
def add_frame_to_storage (fs : Nat → Option Nat) (frm : Option Nat) (i : Nat) : Nat → Option Nat :=
  fun j => if j = i then frm else fs j

/-- Modelled from the spec: `get_frame_from_storage` is missing; it fetches the frame
handle at position `i` (NULL when none was recorded). -/
def get_frame_from_storage (fs : Nat → Option Nat) (i : Nat) : Option Nat :=
  fs i

/-- Modelled from the spec: `kmalloc` / `krealloc` belong to the kernel heap. A request is
served or refused as the next entry of `heap` says (refused once the list is used up). -/
def kheap_request (k : Kernel) : Bool × Kernel :=
  match k.heap with
  | [] => (false, k)
  | b :: rest => (b, { k with heap := rest })

/-- Modelled from the spec: the block returned by a served `krealloc(shares, bytes)`. It
has room for `bytes / sizeof(struct Share)` whole slots; the slots of the old block that
still fit keep their content and the others are uninitialised. -/
def krealloc_block (cfg : Config) (table : List Share) (bytes : Nat) : List Share :=
  table.take (bytes / cfg.SHARE_SIZE) ++
    (List.range (bytes / cfg.SHARE_SIZE - table.length)).map
      (fun j => cfg.uninit (table.length + j))

/-! The registry -/

/-- The loop of `get_share_object_ID`, from index `i` with `rem` iterations to go. -/
def get_share_object_ID_loop (cfg : Config) (shares : List Share) (ownerID : Int)
    (name : List Nat) : Nat → Nat → Except Fault Int
  | 0, _ => .ok cfg.E_SHARED_MEM_NOT_EXISTS
  | rem + 1, i =>
    match shares[i]? with
    | none => .error .outOfBounds
    | some s =>
      if s.empty ≠ 0 then
        get_share_object_ID_loop cfg shares ownerID name rem (i + 1)
      else if s.ownerID = ownerID ∧ name = s.name then
        .ok (i : Int)
      else
        get_share_object_ID_loop cfg shares ownerID name rem (i + 1)

/-- The function `get_share_object_ID(ownerID, name)`: index of the first occupied slot with that owner
and name, else `E_SHARED_MEM_NOT_EXISTS`. -/
def get_share_object_ID (cfg : Config) (k : Kernel) (ownerID : Int) (name : List Nat) :
    Except Fault Int :=
  get_share_object_ID_loop cfg k.shares ownerID name k.MAX_SHARES 0

/-- The first loop of `allocate_share_object`: the first index whose slot has `empty` set;
`none` stands for `sharedObjectID == -1`. -/
def allocate_share_object_scan (shares : List Share) : Nat → Nat → Except Fault (Option Nat)
  | 0, _ => .ok none
  | rem + 1, i =>
    match shares[i]? with
    | none => .error .outOfBounds
    | some s =>
      if s.empty ≠ 0 then .ok (some i)
      else allocate_share_object_scan shares rem (i + 1)

/-- The tail of `allocate_share_object`, from `*allocatedObject = &(shares[sharedObjectID])`
on. -/
def allocate_share_object_take (cfg : Config) (k : Kernel) (sharedObjectID : Nat) :
    Except Fault (Int × Option Nat × Kernel) :=
  match k.shares[sharedObjectID]? with
  | none => .error .outOfBounds
  | some s =>
    if cfg.USE_KHEAP = 1 then
      match kheap_request k with
      | (false, _) => .error .panic
      | (true, k1) =>
        .ok ((sharedObjectID : Int), some sharedObjectID,
          { k1 with
            shares := k.shares.set sharedObjectID
              { s with empty := 0, framesStorage := fun _ => none } })
    else
      .ok ((sharedObjectID : Int), some sharedObjectID,
        { k with shares := k.shares.set sharedObjectID { s with empty := 0 } })

/-- The function `allocate_share_object(&allocatedObject)`. The result is the returned `int`, the pointer
stored in `*allocatedObject` (the index of the slot it points to, `none` for NULL) and the
new state. -/
def allocate_share_object (cfg : Config) (k : Kernel) :
    Except Fault (Int × Option Nat × Kernel) :=
  match allocate_share_object_scan k.shares k.MAX_SHARES 0 with
  | .error e => .error e
  | .ok (some i) => allocate_share_object_take cfg k i
  | .ok none =>
    if cfg.USE_KHEAP = 1 then
      match kheap_request k with
      | (false, k1) => .ok (cfg.E_NO_SHARE, none, { k1 with shares := [] })
      | (true, k1) =>
        allocate_share_object_take cfg
          { k1 with shares := krealloc_block cfg k.shares (2 * k.MAX_SHARES),
                    MAX_SHARES := 2 * k.MAX_SHARES }
          k.MAX_SHARES
    else
      .ok (cfg.E_NO_SHARE, none, k)

/-! The sharing protocol -/

/-- The frame loop of `createSharedObject`, from page `i` with `rem` pages to go; `obj` is
the slot `object` points to and `dir` the caller's page directory. The return value of
`allocate_frame` is not inspected, as in the source. -/
def createSharedObject_loop (cfg : Config) (dir va obj : Nat) :
    Nat → Nat → Kernel → Except Fault Kernel
  | 0, _, k => .ok k
  | rem + 1, i, k =>
    match allocate_frame k with
    | (frm, k1) =>
      let k2 := map_frame k1 dir frm ((va + i * PAGE_SIZE) % 2 ^ 32)
        (cfg.PERM_WRITEABLE ||| cfg.PERM_USER)
      match k2.shares[obj]? with
      | none => .error .outOfBounds
      | some s =>
        createSharedObject_loop cfg dir va obj rem (i + 1)
          { k2 with
            shares := k2.shares.set obj
              { s with framesStorage := add_frame_to_storage s.framesStorage frm i } }

/-- The function `createSharedObject(ownerID, shareName, size, isWritable, virtual_address)`:
lookup, slot allocation, the frame loop, then the metadata of the region. -/
def createSharedObject (cfg : Config) (k : Kernel) (ownerID : Int) (shareName : List Nat)
    (size isWritable virtual_address : Nat) : Except Fault (Int × Kernel) :=
  match get_share_object_ID cfg k ownerID shareName with
  | .error e => .error e
  | .ok id =>
    if id ≠ cfg.E_SHARED_MEM_NOT_EXISTS then .ok (cfg.E_SHARED_MEM_EXISTS, k)
    else
      match allocate_share_object cfg k with
      | .error e => .error e
      | .ok (id, object, k1) =>
        if id = cfg.E_NO_SHARE then .ok (cfg.E_NO_SHARE, k1)
        else
          match object with
          | none => .error .nullDeref
          | some obj =>
            match createSharedObject_loop cfg k.curenv virtual_address obj
                (ROUNDUP size PAGE_SIZE / PAGE_SIZE) 0 k1 with
            | .error e => .error e
            | .ok k2 =>
              match k2.shares[obj]? with
              | none => .error .outOfBounds
              | some s =>
                if cfg.NAME_SIZE < shareName.length + 1 then .error .bufferOverflow
                else
                  .ok (id, { k2 with
                    shares := k2.shares.set obj
                      { s with ownerID := ownerID, name := shareName,
                               size := ROUNDUP size PAGE_SIZE,
                               isWritable := isWritable, references := 1 } })

/-- The function `getSizeOfSharedObject(ownerID, shareName)`; the `uint32` size is returned as an `int`. -/
def getSizeOfSharedObject (cfg : Config) (k : Kernel) (ownerID : Int) (shareName : List Nat) :
    Except Fault (Int × Kernel) :=
  match get_share_object_ID cfg k ownerID shareName with
  | .error e => .error e
  | .ok id =>
    if id = cfg.E_SHARED_MEM_NOT_EXISTS then .ok (cfg.E_SHARED_MEM_NOT_EXISTS, k)
    else
      match k.shares[id.toNat]? with
      | none => .error .outOfBounds
      | some s =>
        .ok (if s.size % 2 ^ 32 < 2 ^ 31 then (s.size % 2 ^ 32 : Int)
             else (s.size % 2 ^ 32 : Int) - 2 ^ 32, k)

/-- The loop of `getSharedObject`, from page `i` with `rem` pages to go. The loop never
writes to `shares`, so its bound `shares[id].size / PAGE_SIZE` is fixed on entry. -/
def getSharedObject_loop (cfg : Config) (dir va id : Nat) :
    Nat → Nat → Kernel → Except Fault Kernel
  | 0, _, k => .ok k
  | rem + 1, i, k =>
    match k.shares[id]? with
    | none => .error .outOfBounds
    | some s =>
      let frm := get_frame_from_storage s.framesStorage i
      let k1 := map_frame k dir frm ((va + i * PAGE_SIZE) % 2 ^ 32)
        (s.isWritable ||| cfg.PERM_USER)
      match frm with
      | none => .error .nullDeref
      | some f =>
        getSharedObject_loop cfg dir va id rem (i + 1)
          { k1 with frameRefs := fun g => if g = f then k1.frameRefs g + 1 else k1.frameRefs g }

/-- The function `getSharedObject(ownerID, shareName, virtual_address)`: lookup, then one
mapping per page of the region in the caller's page directory. -/
def getSharedObject (cfg : Config) (k : Kernel) (ownerID : Int) (shareName : List Nat)
    (virtual_address : Nat) : Except Fault (Int × Kernel) :=
  match get_share_object_ID cfg k ownerID shareName with
  | .error e => .error e
  | .ok id =>
    if id = cfg.E_SHARED_MEM_NOT_EXISTS then .ok (cfg.E_SHARED_MEM_NOT_EXISTS, k)
    else
      match k.shares[id.toNat]? with
      | none => .error .outOfBounds
      | some s =>
        match getSharedObject_loop cfg k.curenv virtual_address id.toNat
            (s.size / PAGE_SIZE) 0 k with
        | .error e => .error e
        | .ok k1 => .ok (id, k1)

/-- The function `freeSharedObject(sharedObjectID, startVA)`: the body is the call of `panic` the
project template left in place; the `return 0` after it is never reached. -/
def freeSharedObject (_cfg : Config) (_k : Kernel) (_sharedObjectID : Int) (_startVA : Nat) :
    Except Fault (Int × Kernel) :=
  .error .panic

/-! Predicates, closed forms and sample data used by the theorems -/

/-- The test of the loop of `get_share_object_ID`: the slot is occupied and carries the key
`(ownerID, name)`. -/
def Share.holds (s : Share) (ownerID : Int) (name : List Nat) : Prop :=
  s.empty = 0 ∧ s.ownerID = ownerID ∧ name = s.name

instance (s : Share) (ownerID : Int) (name : List Nat) : Decidable (s.holds ownerID name) := by
  unfold Share.holds; exact inferInstance

/-- The slot `allocate_share_object` leaves behind in place of `s`. -/
def allocatedSlot (cfg : Config) (s : Share) : Share :=
  if cfg.USE_KHEAP = 1 then { s with empty := 0, framesStorage := fun _ => none }
  else { s with empty := 0 }

/-- Content of a frame storage `fs` after the frame loop ran for pages `i .. i + rem - 1`
on the free list `free`: page `p` of that range holds the frame `allocate_frame` returned
for it (NULL once the free list is used up). -/
def storageAfter (fs : Nat → Option Nat) (free : List Nat) (i rem : Nat) : Nat → Option Nat :=
  fun p => if i ≤ p ∧ p < i + rem then free[p - i]? else fs p

/-- The calls of `map_frame` the frame loop makes for pages `i .. i + rem - 1`. -/
def createMappings (cfg : Config) (dir va : Nat) (free : List Nat) (i rem : Nat) : List Mapping :=
  (List.range rem).map (fun t =>
    { dir := dir, frame := free[t]?, va := (va + (i + t) * PAGE_SIZE) % 2 ^ 32,
      perm := cfg.PERM_WRITEABLE ||| cfg.PERM_USER })

/-- The slot content `createSharedObject` writes over the allocated slot `s`. -/
def createdSlot (ka : Kernel) (s : Share) (o : Int) (n : List Nat) (sz w : Nat) : Share :=
  { s with
    framesStorage :=
      storageAfter s.framesStorage ka.freeFrames 0 (ROUNDUP sz PAGE_SIZE / PAGE_SIZE)
    ownerID := o, name := n, size := ROUNDUP sz PAGE_SIZE, isWritable := w, references := 1 }

/-- The state `createSharedObject` leaves behind when it got slot `j` (content `s`) in the
state `ka` that `allocate_share_object` produced. -/
def createdState (cfg : Config) (ka : Kernel) (dir : Nat) (j : Nat) (s : Share)
    (o : Int) (n : List Nat) (sz w va : Nat) : Kernel :=
  { ka with
    freeFrames := ka.freeFrames.drop (ROUNDUP sz PAGE_SIZE / PAGE_SIZE)
    mappings := ka.mappings ++
      createMappings cfg dir va ka.freeFrames 0 (ROUNDUP sz PAGE_SIZE / PAGE_SIZE)
    shares := ka.shares.set j (createdSlot ka s o n sz w) }

/-- The calls of `map_frame` the loop of `getSharedObject` makes for pages
`i .. i + rem - 1` of the region in slot `s`. -/
def getMappings (cfg : Config) (dir va : Nat) (s : Share) (i rem : Nat) : List Mapping :=
  (List.range rem).map (fun t =>
    { dir := dir, frame := s.framesStorage (i + t), va := (va + (i + t) * PAGE_SIZE) % 2 ^ 32,
      perm := s.isWritable ||| cfg.PERM_USER })

/-- What a successful `createSharedObject(o, n, sz, w, va)` from state `k` established:
`j` is the slot it returned, `s1` the content of that slot in the new state `k1`. -/
structure Created (cfg : Config) (k k1 : Kernel) (o : Int) (n : List Nat) (sz w va : Nat)
    (j : Nat) (s1 : Share) : Prop where
  inMax : j < k1.MAX_SHARES
  leMax : j ≤ k.MAX_SHARES
  maxMono : k.MAX_SHARES ≤ k1.MAX_SHARES
  slot : k1.shares[j]? = some s1
  occupied : s1.empty = 0
  owner : s1.ownerID = o
  named : s1.name = n
  sized : s1.size = ROUNDUP sz PAGE_SIZE
  flag : s1.isWritable = w
  refs : s1.references = 1
  storage : ∃ base, s1.framesStorage =
      storageAfter base k.freeFrames 0 (ROUNDUP sz PAGE_SIZE / PAGE_SIZE) ∧
    (cfg.USE_KHEAP = 1 → base = fun _ => none) ∧
    (cfg.USE_KHEAP ≠ 1 → ∀ s0, k.shares[j]? = some s0 → base = s0.framesStorage)
  others : ∀ i, i < k.MAX_SHARES → i ≠ j → k1.shares[i]? = k.shares[i]?
  wasFree : ∀ s0, k.shares[j]? = some s0 → j < k.MAX_SHARES → s0.empty ≠ 0
  fresh : get_share_object_ID cfg k o n = .ok cfg.E_SHARED_MEM_NOT_EXISTS
  fits : n.length + 1 ≤ cfg.NAME_SIZE
  env : k1.curenv = k.curenv
  frames : k1.freeFrames = k.freeFrames.drop (ROUNDUP sz PAGE_SIZE / PAGE_SIZE)
  frameRefs : k1.frameRefs = k.frameRefs
  maps : k1.mappings = k.mappings ++
    createMappings cfg k.curenv va k.freeFrames 0 (ROUNDUP sz PAGE_SIZE / PAGE_SIZE)

/-- Sample values for the constants of the missing headers: the two permission bits as the
x86 page-table entry defines them (bit 1 writable, bit 2 user), negative error codes, a
64-byte name field, no kernel heap. -/
def sampleConfig : Config :=
  { PERM_WRITEABLE := 2, PERM_USER := 4, USE_KHEAP := 0,
    E_SHARED_MEM_NOT_EXISTS := -11, E_SHARED_MEM_EXISTS := -10, E_NO_SHARE := -12,
    NAME_SIZE := 64, SHARE_SIZE := 84, uninit := fun _ => Share.zero }

/-- The name `"buf"`. -/
def buf : List Nat := [98, 117, 102]

/-- A registry of two unoccupied slots as `create_shares_array` leaves it, environment 7
running, three free frames. -/
def sampleKernel : Kernel :=
  { shares := [{ Share.zero with empty := 1 }, { Share.zero with empty := 1 }],
    MAX_SHARES := 2, curenv := 7, freeFrames := [100, 101, 102],
    frameRefs := fun _ => 0, mappings := [], heap := [] }

/-- The state a call left behind (`dflt` when the call faulted). -/
def stateAfter (r : Except Fault (Int × Kernel)) (dflt : Kernel) : Kernel :=
  match r with
  | .ok (_, k) => k
  | .error _ => dflt

/-- A registry whose two slots are both occupied. -/
def fullKernel : Kernel :=
  { sampleKernel with
    shares := [{ Share.zero with ownerID := 7, name := [97], size := 4096, references := 1 },
               { Share.zero with ownerID := 7, name := [98], size := 4096, references := 1 }] }

/-- Owner 7 created `"buf"` of 4097 bytes, read-only, at `0x1000`. -/
def afterCreateRO : Kernel :=
  stateAfter (createSharedObject sampleConfig sampleKernel 7 buf 4097 0 0x1000) sampleKernel

/-- Owner 7 created `"buf"` of 4097 bytes, writable, at `0x1000`. -/
def afterCreateRW : Kernel :=
  stateAfter (createSharedObject sampleConfig sampleKernel 7 buf 4097 1 0x1000) sampleKernel

/-- The region owner 7 created read-only. -/
def regionRO : Share := (afterCreateRO.shares[0]?).getD Share.zero

/-- The region owner 7 created writable. -/
def regionRW : Share := (afterCreateRW.shares[0]?).getD Share.zero

/-- Environment 9 got the read-only `"buf"` of owner 7 at `0x4000`. -/
def afterGetRO : Kernel :=
  stateAfter (getSharedObject sampleConfig { afterCreateRO with curenv := 9 } 7 buf 0x4000)
    afterCreateRO

/-- Environment 9 got the writable `"buf"` of owner 7 at `0x4000`. -/
def afterGetRW : Kernel :=
  stateAfter (getSharedObject sampleConfig { afterCreateRW with curenv := 9 } 7 buf 0x4000)
    afterCreateRW

/-- A call of the sharing protocol made by environment `env`. -/
inductive Call where
  | create (env : Nat) (ownerID : Int) (name : List Nat) (size isWritable va : Nat)
  | get (env : Nat) (ownerID : Int) (name : List Nat) (va : Nat)

/-- Runs the calls one after the other, each in its own environment; `none` when a call
faults. A call that returns an error code is a call that returned. -/
def runCalls (cfg : Config) : List Call → Kernel → Option Kernel
  | [], k => some k
  | .create e o n sz w va :: rest, k =>
    match createSharedObject cfg { k with curenv := e } o n sz w va with
    | .ok (_, k1) => runCalls cfg rest k1
    | .error _ => none
  | .get e o n va :: rest, k =>
    match getSharedObject cfg { k with curenv := e } o n va with
    | .ok (_, k1) => runCalls cfg rest k1
    | .error _ => none

/-- Owner 7 asked for `2 ^ 32 - 1` bytes. -/
def afterCreateHuge : Kernel :=
  stateAfter (createSharedObject sampleConfig sampleKernel 7 buf 4294967295 0 0x1000) sampleKernel

/-- The region in slot `j` is live in `k`: the slot lies inside the registry, holds `s1`,
and no slot before it carries the key `(o, n)`. -/
def Live (o : Int) (n : List Nat) (j : Nat) (s1 : Share) (k : Kernel) : Prop :=
  j < k.MAX_SHARES ∧ k.shares[j]? = some s1 ∧
    ∀ j', j' < j → ∃ s', k.shares[j']? = some s' ∧ ¬ s'.holds o n

/-- The registry was lost: `shares` is NULL (a refused `krealloc` overwrote the pointer)
while `MAX_SHARES` still counts slots. -/
def Lost (k : Kernel) : Prop :=
  k.shares = [] ∧ 0 < k.MAX_SHARES

/-- No frame is free: `createSharedObject` meets an `allocate_frame` failure on page 0. -/
def noFrames : Kernel := { sampleKernel with freeFrames := [] }

/-! Initialisation and release of the registry -/

/-- Modelled from the spec: the block returned by a served `kmalloc(bytes)` for the table:
room for `bytes / sizeof(struct Share)` whole slots, all uninitialised. -/
def kmalloc_block (cfg : Config) (bytes : Nat) : List Share :=
  (List.range (bytes / cfg.SHARE_SIZE)).map cfg.uninit

/-- The slot left by `memset(&(shares[i]), 0, sizeof(struct Share))` followed by
`shares[i].empty = 1`. -/
def emptySlot : Share :=
  { Share.zero with empty := 1 }

/-- The loop of `create_shares_array`, from index `i` with `rem` iterations to go, on the
table `shares`. -/
def create_shares_array_loop : Nat → Nat → List Share → Except Fault (List Share)
  | 0, _, shares => .ok shares
  | rem + 1, i, shares =>
    match shares[i]? with
    | none => .error .outOfBounds
    | some _ => create_shares_array_loop rem (i + 1) (shares.set i emptySlot)

/-- The function `create_shares_array(numOfElements)`: the table is allocated for
`numOfElements` slots (the byte count is a 32-bit product), then the loop runs over the
first `MAX_SHARES` slots. -/
def create_shares_array (cfg : Config) (k : Kernel) (numOfElements : Nat) :
    Except Fault Kernel :=
  match kheap_request k with
  | (false, _) => .error .panic
  | (true, k1) =>
    match create_shares_array_loop k.MAX_SHARES 0
        (kmalloc_block cfg ((numOfElements * cfg.SHARE_SIZE) % 2 ^ 32)) with
    | .error e => .error e
    | .ok shares => .ok { k1 with shares := shares }

/-- Modelled from the spec: the frame backend is told that one holder of frame `f` is gone;
it decrements the frame's reference count and puts a frame without holders back on the free
list. -/
def release_frame (k : Kernel) (f : Nat) : Kernel :=
  { k with
    frameRefs := fun g => if g = f then k.frameRefs g - 1 else k.frameRefs g
    freeFrames := if k.frameRefs f ≤ 1 then f :: k.freeFrames else k.freeFrames }

/-- The walk of `clear_frames_storage` over the positions of a frame storage, from position
`p` with `rem` positions to go: every frame handle met is released. -/
def clear_frames_storage_loop (fs : Nat → Option Nat) : Nat → Nat → Kernel → Kernel
  | 0, _, k => k
  | rem + 1, p, k =>
    match fs p with
    | none => clear_frames_storage_loop fs rem (p + 1) k
    | some f => clear_frames_storage_loop fs rem (p + 1) (release_frame k f)

/-- Modelled from the spec: `clear_frames_storage` is missing; Release "releases all frame
handles held by the slot's Frame-Storage Index (notifying the frame backend so it can
decrement shared reference counts and free frames with no remaining holders)". The storage
has one position per page of the 32-bit address space. -/
def clear_frames_storage (k : Kernel) (fs : Nat → Option Nat) : Kernel :=
  clear_frames_storage_loop fs (2 ^ 32 / PAGE_SIZE) 0 k

/-- The function `free_share_object(sharedObjectID)`. The call of `kfree` has no effect on the
state of the embedding. -/
def free_share_object (cfg : Config) (k : Kernel) (sharedObjectID : Nat) :
    Except Fault (Int × Kernel) :=
  if k.MAX_SHARES ≤ sharedObjectID then .ok (cfg.E_SHARED_MEM_NOT_EXISTS, k)
  else
    match k.shares[sharedObjectID]? with
    | none => .error .outOfBounds
    | some s =>
      .ok (0, { clear_frames_storage k s.framesStorage with
        shares := (clear_frames_storage k s.framesStorage).shares.set sharedObjectID emptySlot })

/-- The registry states the running kernel can be in: the state `create_shares_array` leaves
at boot, and every state reached from it by a change of the running environment or by a
returning call of `createSharedObject`, `getSharedObject` or `free_share_object`. -/
inductive Reachable (cfg : Config) : Kernel → Prop
  | boot (k0 k : Kernel) (n : Nat) :
      create_shares_array cfg k0 n = .ok k → Reachable cfg k
  | env (k : Kernel) (e : Nat) :
      Reachable cfg k → Reachable cfg { k with curenv := e }
  | create (k k1 : Kernel) (o : Int) (n : List Nat) (sz w va : Nat) (r : Int) :
      Reachable cfg k → createSharedObject cfg k o n sz w va = .ok (r, k1) → Reachable cfg k1
  | get (k k1 : Kernel) (o : Int) (n : List Nat) (va : Nat) (r : Int) :
      Reachable cfg k → getSharedObject cfg k o n va = .ok (r, k1) → Reachable cfg k1
  | release (k k1 : Kernel) (id : Nat) (r : Int) :
      Reachable cfg k → free_share_object cfg k id = .ok (r, k1) → Reachable cfg k1

/-- No two occupied slots of the registry carry the same `(ownerID, name)` pair. -/
def Unique (k : Kernel) : Prop :=
  ∀ (i j : Nat) (s t : Share), i < k.MAX_SHARES → j < k.MAX_SHARES →
    k.shares[i]? = some s → k.shares[j]? = some t → s.empty = 0 → t.empty = 0 →
    s.ownerID = t.ownerID → s.name = t.name → i = j

/-- Every unoccupied slot of the registry has zero metadata. -/
def FreeSlotsZeroed (k : Kernel) : Prop :=
  ∀ (i : Nat) (s : Share), i < k.MAX_SHARES → k.shares[i]? = some s → s.empty ≠ 0 →
    s.ownerID = 0 ∧ s.name = [] ∧ s.size = 0 ∧ s.isWritable = 0 ∧ s.references = 0

/-- A registry of one slot that holds a region of owner 7 named `"buf"` with a stored size
of `2 ^ 31` bytes. -/
def bigRegionKernel : Kernel :=
  { sampleKernel with
    shares := [{ Share.zero with ownerID := 7, name := buf, size := 2147483648, references := 1 }]
    MAX_SHARES := 1 }

/-- The sample constants with the kernel heap in use (`USE_KHEAP == 1`). -/
def heapConfig : Config :=
  { sampleConfig with USE_KHEAP := 1 }

/-- The full two-slot registry with a kernel heap that serves the next two requests. -/
def fullKernelHeap : Kernel :=
  { fullKernel with heap := [true, true] }

/-- The kernel before boot: no table yet, `MAX_SHARES` holds `m`, the heap serves the
request for the table. -/
def bootKernel (m : Nat) : Kernel :=
  { sampleKernel with shares := [], MAX_SHARES := m, heap := [true] }

/-! Frame counts, and a sample run with three regions -/

/-- The number of positions below `bound` of a frame storage that hold a frame. -/
def framesRecorded (fs : Nat → Option Nat) : Nat → Nat
  | 0 => 0
  | bound + 1 => framesRecorded fs bound + (if (fs bound).isSome then 1 else 0)

/-- Every unoccupied slot of the registry has an empty frame storage. -/
def FreeSlotsNoFrames (k : Kernel) : Prop :=
  ∀ (i : Nat) (s : Share), i < k.MAX_SHARES → k.shares[i]? = some s → s.empty ≠ 0 →
    ∀ p, s.framesStorage p = none

/-- Owner 7 asked for one page (4096 bytes) while no frame was free. -/
def afterCreateNoFrames : Kernel :=
  stateAfter (createSharedObject sampleConfig noFrames 7 buf 4096 0 0x1000) noFrames

/-- The name `"x"`. -/
def nameX : List Nat := [120]

/-- The registry `create_shares_array(3)` leaves with `MAX_SHARES = 3`: three unoccupied
slots, environment 7 running, three free frames. -/
def bootedThree : Kernel :=
  { sampleKernel with shares := [emptySlot, emptySlot, emptySlot], MAX_SHARES := 3 }

/-- Owner 7 created `"buf"` of one page, writable, at `0x1000` (slot 0). -/
def afterFirst : Kernel :=
  stateAfter (createSharedObject sampleConfig bootedThree 7 buf 4096 1 0x1000) bootedThree

/-- Environment 9 created its own `"buf"` of one page, read-only, at `0x1000` (slot 1). -/
def afterSecond : Kernel :=
  stateAfter (createSharedObject sampleConfig { afterFirst with curenv := 9 } 9 buf 4096 0 0x1000)
    afterFirst

/-- Owner 7 created `"x"` of one page, read-only, at `0x5000` (slot 2). -/
def afterThird : Kernel :=
  stateAfter
    (createSharedObject sampleConfig { afterSecond with curenv := 7 } 7 nameX 4096 0 0x5000)
    afterSecond

/-- Environment 9 got the `"buf"` of owner 7 at `0x4000`. -/
def afterShare : Kernel :=
  stateAfter (getSharedObject sampleConfig { afterThird with curenv := 9 } 7 buf 0x4000)
    afterThird

/-- The region in slot 2 was released with `free_share_object(2)`. -/
def afterRelease : Kernel :=
  stateAfter (free_share_object sampleConfig afterShare 2) afterShare

/-! Theorems -/

theorem lookup_loop_succ (cfg : Config) (sh : List Share) (o : Int) (n : List Nat)
    (rem i : Nat) (s : Share) (hs : sh[i]? = some s) :
    get_share_object_ID_loop cfg sh o n (rem + 1) i =
      if s.holds o n then .ok (i : Int) else get_share_object_ID_loop cfg sh o n rem (i + 1) := by
  simp only [get_share_object_ID_loop, hs, Share.holds]
  by_cases h1 : s.empty = 0
  · by_cases h2 : s.ownerID = o ∧ n = s.name
    · simp [h1, h2]
    · have h3 : ¬ (s.empty = 0 ∧ s.ownerID = o ∧ n = s.name) := fun h => h2 h.2
      simp [h1, h2]
  · have h3 : ¬ (s.empty = 0 ∧ s.ownerID = o ∧ n = s.name) := fun h => h1 h.1
    simp [h1]

theorem lookup_loop_inv (cfg : Config) (sh : List Share) (o : Int) (n : List Nat) :
    ∀ (rem i : Nat) (r : Int), get_share_object_ID_loop cfg sh o n rem i = .ok r →
      (r = cfg.E_SHARED_MEM_NOT_EXISTS ∧
        ∀ j, i ≤ j → j < i + rem → ∃ s, sh[j]? = some s ∧ ¬ s.holds o n) ∨
      (∃ j s, i ≤ j ∧ j < i + rem ∧ r = (j : Int) ∧ sh[j]? = some s ∧ s.holds o n ∧
        ∀ j', i ≤ j' → j' < j → ∃ s', sh[j']? = some s' ∧ ¬ s'.holds o n) := by
  intro rem
  induction rem with
  | zero =>
    intro i r h
    simp only [get_share_object_ID_loop, Except.ok.injEq] at h
    exact Or.inl ⟨h.symm, fun j h1 h2 => by omega⟩
  | succ rem ih =>
    intro i r h
    cases hs : sh[i]? with
    | none => simp [get_share_object_ID_loop, hs] at h
    | some s =>
      rw [lookup_loop_succ cfg sh o n rem i s hs] at h
      by_cases hh : s.holds o n
      · rw [if_pos hh, Except.ok.injEq] at h
        exact Or.inr ⟨i, s, le_refl i, by omega, h.symm, hs, hh, fun j' h1 h2 => by omega⟩
      · rw [if_neg hh] at h
        have step : ∀ j, i ≤ j → j < i + 1 → ∃ s', sh[j]? = some s' ∧ ¬ s'.holds o n := by
          intro j h1 h2
          have : j = i := by omega
          subst this
          exact ⟨s, hs, hh⟩
        rcases ih (i + 1) r h with ⟨hr, hall⟩ | ⟨j, s', h1, h2, h3, h4, h5, h6⟩
        · refine Or.inl ⟨hr, fun j h1 h2 => ?_⟩
          by_cases hj : j = i
          · exact step j h1 (by omega)
          · exact hall j (by omega) (by omega)
        · refine Or.inr ⟨j, s', by omega, by omega, h3, h4, h5, fun j' h7 h8 => ?_⟩
          by_cases hj : j' = i
          · exact step j' h7 (by omega)
          · exact h6 j' (by omega) h8

theorem lookup_loop_found (cfg : Config) (sh : List Share) (o : Int) (n : List Nat) :
    ∀ (rem i j : Nat) (s : Share), i ≤ j → j < i + rem → sh[j]? = some s → s.holds o n →
      (∀ j', i ≤ j' → j' < j → ∃ s', sh[j']? = some s' ∧ ¬ s'.holds o n) →
      get_share_object_ID_loop cfg sh o n rem i = .ok (j : Int) := by
  intro rem
  induction rem with
  | zero => intro i j s h1 h2; omega
  | succ rem ih =>
    intro i j s h1 h2 hs hh hbefore
    by_cases hij : j = i
    · subst hij
      rw [lookup_loop_succ cfg sh o n rem j s hs, if_pos hh]
    · obtain ⟨s', hs', hn'⟩ := hbefore i (le_refl i) (by omega)
      rw [lookup_loop_succ cfg sh o n rem i s' hs', if_neg hn']
      exact ih (i + 1) j s (by omega) (by omega) hs hh
        (fun j' h3 h4 => hbefore j' (by omega) h4)

theorem lookup_loop_none (cfg : Config) (sh : List Share) (o : Int) (n : List Nat) :
    ∀ (rem i : Nat), (∀ j, i ≤ j → j < i + rem → ∃ s, sh[j]? = some s ∧ ¬ s.holds o n) →
      get_share_object_ID_loop cfg sh o n rem i = .ok cfg.E_SHARED_MEM_NOT_EXISTS := by
  intro rem
  induction rem with
  | zero => intro i _; rfl
  | succ rem ih =>
    intro i hall
    obtain ⟨s, hs, hn⟩ := hall i (le_refl i) (by omega)
    rw [lookup_loop_succ cfg sh o n rem i s hs, if_neg hn]
    exact ih (i + 1) (fun j h1 h2 => hall j (by omega) (by omega))

theorem scan_succ (sh : List Share) (rem i : Nat) (s : Share) (hs : sh[i]? = some s) :
    allocate_share_object_scan sh (rem + 1) i =
      if s.empty ≠ 0 then .ok (some i) else allocate_share_object_scan sh rem (i + 1) := by
  simp only [allocate_share_object_scan, hs]

theorem scan_inv (sh : List Share) :
    ∀ (rem i : Nat) (r : Option Nat), allocate_share_object_scan sh rem i = .ok r →
      (∀ j, r = some j → i ≤ j ∧ j < i + rem ∧ ∃ s, sh[j]? = some s ∧ s.empty ≠ 0) ∧
      (∀ j, i ≤ j → j < i + rem → (∀ j0, r = some j0 → j < j0) →
        ∃ s, sh[j]? = some s ∧ s.empty = 0) := by
  intro rem
  induction rem with
  | zero =>
    intro i r h
    simp only [allocate_share_object_scan, Except.ok.injEq] at h
    subst h
    exact ⟨fun j hj => by simp at hj, fun j h1 h2 => by omega⟩
  | succ rem ih =>
    intro i r h
    cases hs : sh[i]? with
    | none => simp [allocate_share_object_scan, hs] at h
    | some s =>
      rw [scan_succ sh rem i s hs] at h
      by_cases he : s.empty ≠ 0
      · rw [if_pos he, Except.ok.injEq] at h
        subst h
        refine ⟨fun j hj => ?_, fun j h1 h2 h3 => ?_⟩
        · simp only [Option.some.injEq] at hj
          subst hj
          exact ⟨le_refl _, by omega, s, hs, he⟩
        · have := h3 i rfl
          omega
      · rw [if_neg he] at h
        obtain ⟨ih1, ih2⟩ := ih (i + 1) r h
        refine ⟨fun j hj => ?_, fun j h1 h2 h3 => ?_⟩
        · obtain ⟨a, b, c⟩ := ih1 j hj
          exact ⟨by omega, by omega, c⟩
        · by_cases hj : j = i
          · subst hj
            exact ⟨s, hs, by simpa using he⟩
          · exact ih2 j (by omega) (by omega) h3

theorem scan_full (sh : List Share) :
    ∀ (rem i : Nat), (∀ j, i ≤ j → j < i + rem → ∃ s, sh[j]? = some s ∧ s.empty = 0) →
      allocate_share_object_scan sh rem i = .ok none := by
  intro rem
  induction rem with
  | zero => intro i _; rfl
  | succ rem ih =>
    intro i hall
    obtain ⟨s, hs, he⟩ := hall i (le_refl i) (by omega)
    rw [scan_succ sh rem i s hs, if_neg (by simp [he])]
    exact ih (i + 1) (fun j h1 h2 => hall j (by omega) (by omega))

theorem take_inv (cfg : Config) (k ka : Kernel) (j : Nat) (ret : Int) (obj : Option Nat)
    (h : allocate_share_object_take cfg k j = .ok (ret, obj, ka)) :
    ret = (j : Int) ∧ obj = some j ∧ ∃ s, k.shares[j]? = some s ∧
      ka.shares = k.shares.set j (allocatedSlot cfg s) ∧
      ka.MAX_SHARES = k.MAX_SHARES ∧ ka.curenv = k.curenv ∧ ka.freeFrames = k.freeFrames ∧
      ka.frameRefs = k.frameRefs ∧ ka.mappings = k.mappings := by
  unfold allocate_share_object_take at h
  cases hs : k.shares[j]? with
  | none => simp [hs] at h
  | some s =>
    simp only [hs] at h
    by_cases hk : cfg.USE_KHEAP = 1
    · simp only [hk, if_true] at h
      unfold kheap_request at h
      cases hh : k.heap with
      | nil => simp [hh] at h
      | cons b rest =>
        cases b with
        | false => simp [hh] at h
        | true =>
          simp only [hh, Except.ok.injEq, Prod.mk.injEq] at h
          obtain ⟨h1, h2, h3⟩ := h
          subst h3
          exact ⟨h1.symm, h2.symm, s, rfl, by simp [allocatedSlot, hk], rfl, rfl, rfl, rfl, rfl⟩
    · simp only [hk, if_false, Except.ok.injEq, Prod.mk.injEq] at h
      obtain ⟨h1, h2, h3⟩ := h
      subst h3
      exact ⟨h1.symm, h2.symm, s, rfl, by simp [allocatedSlot, hk], rfl, rfl, rfl, rfl, rfl⟩

theorem krealloc_block_length (cfg : Config) (t : List Share) (b : Nat) :
    (krealloc_block cfg t b).length = b / cfg.SHARE_SIZE := by
  simp only [krealloc_block, List.length_append, List.length_take, List.length_map,
    List.length_range]
  omega

theorem krealloc_block_keeps (cfg : Config) (t : List Share) (b i : Nat)
    (h1 : i < b / cfg.SHARE_SIZE) (h2 : i < t.length) :
    (krealloc_block cfg t b)[i]? = t[i]? := by
  unfold krealloc_block
  rw [List.getElem?_append_left (by simp; omega), List.getElem?_take_of_lt h1]

/-- What a call of `allocate_share_object` that hands out a slot did. -/
theorem allocate_some (cfg : Config) (k ka : Kernel) (ret : Int) (j : Nat)
    (h : allocate_share_object cfg k = .ok (ret, some j, ka)) :
    ret = (j : Int) ∧ j < ka.shares.length ∧ j < ka.MAX_SHARES ∧
      k.MAX_SHARES ≤ ka.MAX_SHARES ∧ j ≤ k.MAX_SHARES ∧
      (∀ i, i < k.MAX_SHARES → i ≠ j → ka.shares[i]? = k.shares[i]?) ∧
      (∀ s, k.shares[j]? = some s → j < k.MAX_SHARES → s.empty ≠ 0) ∧
      (∃ s, ka.shares[j]? = some s ∧ s.empty = 0 ∧
        (cfg.USE_KHEAP = 1 → s.framesStorage = fun _ => none) ∧
        (cfg.USE_KHEAP ≠ 1 → ∀ s0, k.shares[j]? = some s0 → s = { s0 with empty := 0 })) ∧
      ka.curenv = k.curenv ∧ ka.freeFrames = k.freeFrames ∧
      ka.frameRefs = k.frameRefs ∧ ka.mappings = k.mappings := by
  unfold allocate_share_object at h
  cases hscan : allocate_share_object_scan k.shares k.MAX_SHARES 0 with
  | error e => simp [hscan] at h
  | ok r =>
    obtain ⟨inv1, inv2⟩ := scan_inv k.shares k.MAX_SHARES 0 r hscan
    cases r with
    | some i =>
      simp only [hscan] at h
      obtain ⟨h1, h2, s, hs, hsh, hM, hc, hf, hr, hm⟩ := take_inv cfg k ka i ret (some j) h
      have hij : j = i := by simpa using h2
      subst hij
      obtain ⟨_, hlt, s1, hs1, he1⟩ := inv1 j rfl
      have hlen : j < k.shares.length := (List.getElem?_eq_some.mp hs).1
      refine ⟨h1, by rw [hsh]; simpa using hlen, by omega, by omega, by omega, ?_, ?_, ?_,
        hc, hf, hr, hm⟩
      · intro i _ hne
        rw [hsh, List.getElem?_set_ne (Ne.symm hne)]
      · intro s0 hs0 _
        rw [hs1] at hs0
        cases hs0
        exact he1
      · refine ⟨allocatedSlot cfg s, by rw [hsh, List.getElem?_set_self hlen], ?_, ?_, ?_⟩
        · unfold allocatedSlot; split <;> rfl
        · intro hk; simp [allocatedSlot, hk]
        · intro hk s0 hs0
          rw [hs] at hs0
          cases hs0
          simp [allocatedSlot, hk]
    | none =>
      simp only [hscan] at h
      by_cases hk : cfg.USE_KHEAP = 1
      · simp only [hk, if_true] at h
        unfold kheap_request at h
        cases hh : k.heap with
        | nil => simp [hh] at h
        | cons b rest =>
          cases b with
          | false => simp [hh] at h
          | true =>
            simp only [hh] at h
            obtain ⟨h1, h2, s, hs, hsh, hM, hc, hf, hr, hm⟩ := take_inv cfg _ ka _ ret (some j) h
            have hij : j = k.MAX_SHARES := by simpa using h2
            simp only at hs hsh hM hc hf hr hm
            have hlen : k.MAX_SHARES < (krealloc_block cfg k.shares (2 * k.MAX_SHARES)).length :=
              (List.getElem?_eq_some.mp hs).1
            have hlen2 := hlen
            rw [krealloc_block_length] at hlen2
            have hpos : 0 < k.MAX_SHARES := by
              rcases Nat.eq_zero_or_pos k.MAX_SHARES with h0 | h0
              · rw [h0] at hlen2; simp at hlen2
              · exact h0
            subst hij
            refine ⟨h1, by rw [hsh]; simpa using hlen, by omega, by omega, by omega, ?_, ?_, ?_,
              hc, hf, hr, hm⟩
            · intro i hi hne
              obtain ⟨si, hsi, _⟩ := inv2 i (Nat.zero_le _) (by omega) (fun j0 hj0 => by simp at hj0)
              rw [hsh, List.getElem?_set_ne (Ne.symm hne)]
              exact krealloc_block_keeps cfg k.shares _ i (by omega)
                (List.getElem?_eq_some.mp hsi).1
            · intro s0 _ hlt
              omega
            · refine ⟨allocatedSlot cfg s, by rw [hsh, List.getElem?_set_self hlen], ?_, ?_, ?_⟩
              · unfold allocatedSlot; split <;> rfl
              · intro _; simp [allocatedSlot, hk]
              · intro hk2; exact absurd hk hk2
      · simp [hk] at h

/-- What a call of `allocate_share_object` that hands out no slot did. -/
theorem allocate_none (cfg : Config) (k ka : Kernel) (ret : Int)
    (h : allocate_share_object cfg k = .ok (ret, none, ka)) :
    ret = cfg.E_NO_SHARE ∧ (cfg.USE_KHEAP ≠ 1 → ka = k) ∧
      (cfg.USE_KHEAP = 1 → ka.shares = [] ∧ ka.MAX_SHARES = k.MAX_SHARES) ∧
      ∀ j, j < k.MAX_SHARES → ∃ s, k.shares[j]? = some s ∧ s.empty = 0 := by
  unfold allocate_share_object at h
  cases hscan : allocate_share_object_scan k.shares k.MAX_SHARES 0 with
  | error e => simp [hscan] at h
  | ok r =>
    obtain ⟨_, inv2⟩ := scan_inv k.shares k.MAX_SHARES 0 r hscan
    cases r with
    | some i =>
      simp only [hscan] at h
      have := (take_inv cfg k ka i ret none h).2.1
      simp at this
    | none =>
      have hfull : ∀ j, j < k.MAX_SHARES → ∃ s, k.shares[j]? = some s ∧ s.empty = 0 :=
        fun j hj => inv2 j (Nat.zero_le _) (by omega) (fun j0 hj0 => by simp at hj0)
      simp only [hscan] at h
      by_cases hk : cfg.USE_KHEAP = 1
      · simp only [hk, if_true] at h
        unfold kheap_request at h
        cases hh : k.heap with
        | nil =>
          simp only [hh, Except.ok.injEq, Prod.mk.injEq] at h
          obtain ⟨h1, _, h3⟩ := h
          subst h3
          exact ⟨h1.symm, fun h => absurd hk h, fun _ => ⟨rfl, rfl⟩, hfull⟩
        | cons b rest =>
          cases b with
          | false =>
            simp only [hh, Except.ok.injEq, Prod.mk.injEq] at h
            obtain ⟨h1, _, h3⟩ := h
            subst h3
            exact ⟨h1.symm, fun h => absurd hk h, fun _ => ⟨rfl, rfl⟩, hfull⟩
          | true =>
            simp only [hh] at h
            have := (take_inv cfg _ ka _ ret none h).2.1
            simp at this
      · simp only [hk, if_false, Except.ok.injEq, Prod.mk.injEq] at h
        obtain ⟨h1, _, h3⟩ := h
        exact ⟨h1.symm, fun _ => h3.symm, fun h => absurd h hk, hfull⟩

theorem allocate_frame_eq (k : Kernel) :
    allocate_frame k = (k.freeFrames[0]?, { k with freeFrames := k.freeFrames.drop 1 }) := by
  cases k with
  | mk sh M c free refs maps heap =>
    cases free with
    | nil => simp [allocate_frame]
    | cons f rest => simp [allocate_frame]

theorem storageAfter_zero (fs : Nat → Option Nat) (free : List Nat) (i : Nat) :
    storageAfter fs free i 0 = fs := by
  funext p
  simp only [storageAfter]
  rw [if_neg (by omega)]

theorem storageAfter_succ (fs : Nat → Option Nat) (free : List Nat) (i rem : Nat) :
    storageAfter (add_frame_to_storage fs free[0]? i) (free.drop 1) (i + 1) rem =
      storageAfter fs free i (rem + 1) := by
  funext p
  simp only [storageAfter, add_frame_to_storage]
  by_cases h1 : i + 1 ≤ p ∧ p < i + 1 + rem
  · rw [if_pos h1, if_pos (by omega), List.getElem?_drop]
    congr 1
    omega
  · rw [if_neg h1]
    by_cases h2 : p = i
    · subst h2
      rw [if_pos rfl, if_pos (by omega)]
      simp
    · rw [if_neg h2, if_neg (by omega)]

theorem createMappings_succ (cfg : Config) (dir va : Nat) (free : List Nat) (i rem : Nat) :
    createMappings cfg dir va free i (rem + 1) =
      { dir := dir, frame := free[0]?, va := (va + i * PAGE_SIZE) % 2 ^ 32,
        perm := cfg.PERM_WRITEABLE ||| cfg.PERM_USER } ::
      createMappings cfg dir va (free.drop 1) (i + 1) rem := by
  simp only [createMappings, List.range_succ_eq_map, List.map_cons, List.map_map, Nat.add_zero]
  congr 1
  apply List.map_congr_left
  intro t _
  simp only [Function.comp, Nat.succ_eq_add_one, List.getElem?_drop]
  have e1 : i + (t + 1) = i + 1 + t := by omega
  have e2 : 1 + t = t + 1 := by omega
  rw [e1, e2]

theorem set_same (sh : List Share) (obj : Nat) (s : Share) (h : sh[obj]? = some s) :
    sh.set obj s = sh := by
  apply List.ext_getElem?
  intro j
  by_cases hj : obj = j
  · subst hj
    rw [List.getElem?_set_self (List.getElem?_eq_some.mp h).1, h]
  · rw [List.getElem?_set_ne hj]

/-- The frame loop always runs to its end; it takes the first `rem` frames of the free list
(as many as there are), records one `map_frame` call per page and fills the storage of
slot `obj`. -/
theorem create_loop_eq (cfg : Config) (dir va obj : Nat) :
    ∀ (rem i : Nat) (k : Kernel) (s : Share), k.shares[obj]? = some s →
      createSharedObject_loop cfg dir va obj rem i k = .ok
        { k with
          freeFrames := k.freeFrames.drop rem
          mappings := k.mappings ++ createMappings cfg dir va k.freeFrames i rem
          shares := k.shares.set obj
            { s with framesStorage := storageAfter s.framesStorage k.freeFrames i rem } } := by
  intro rem
  induction rem with
  | zero =>
    intro i k s hs
    simp only [createSharedObject_loop, storageAfter_zero, createMappings, List.range_zero,
      List.map_nil, List.append_nil, List.drop_zero]
    rw [set_same k.shares obj s hs]
  | succ rem ih =>
    intro i k s hs
    have hlen : obj < k.shares.length := (List.getElem?_eq_some.mp hs).1
    simp only [createSharedObject_loop, allocate_frame_eq, map_frame, hs]
    rw [ih (i + 1) _ _ (List.getElem?_set_self hlen)]
    simp only [List.set_set, storageAfter_succ, createMappings_succ, List.drop_drop,
      List.append_assoc, List.singleton_append]
    have e : 1 + rem = rem + 1 := by omega
    rw [e]

theorem create_eq (cfg : Config) (k ka : Kernel) (o : Int) (n : List Nat) (sz w va : Nat)
    (r : Int) (j : Nat) (s : Share)
    (hl : get_share_object_ID cfg k o n = .ok cfg.E_SHARED_MEM_NOT_EXISTS)
    (ha : allocate_share_object cfg k = .ok (r, some j, ka))
    (hne : r ≠ cfg.E_NO_SHARE) (hs : ka.shares[j]? = some s)
    (hfit : n.length + 1 ≤ cfg.NAME_SIZE) :
    createSharedObject cfg k o n sz w va = .ok (r, createdState cfg ka k.curenv j s o n sz w va) := by
  have hlen : j < ka.shares.length := (List.getElem?_eq_some.mp hs).1
  have hfit2 : ¬ cfg.NAME_SIZE < n.length + 1 := by omega
  unfold createSharedObject
  simp only [hl, ha, ne_eq, not_true_eq_false, if_false, hne]
  rw [create_loop_eq cfg k.curenv va j _ 0 ka s hs]
  simp only [List.getElem?_set_self hlen, hfit2, if_false, List.set_set, createdState,
    createdSlot]

/-- The three ways in which `createSharedObject` returns: the key exists already, no slot
could be had, or a slot was taken and `createdState` is left. -/
theorem create_inv (cfg : Config) (k k1 : Kernel) (o : Int) (n : List Nat) (sz w va : Nat)
    (r : Int) (hN : cfg.E_NO_SHARE < 0)
    (h : createSharedObject cfg k o n sz w va = .ok (r, k1)) :
    (r = cfg.E_SHARED_MEM_EXISTS ∧ k1 = k) ∨
    (r = cfg.E_NO_SHARE ∧ (k1 = k ∨ (k1.shares = [] ∧ k1.MAX_SHARES = k.MAX_SHARES))) ∨
    (∃ (j : Nat) (ka : Kernel) (s : Share), r = (j : Int) ∧
      get_share_object_ID cfg k o n = .ok cfg.E_SHARED_MEM_NOT_EXISTS ∧
      allocate_share_object cfg k = .ok (r, some j, ka) ∧
      ka.shares[j]? = some s ∧ n.length + 1 ≤ cfg.NAME_SIZE ∧
      k1 = createdState cfg ka k.curenv j s o n sz w va) := by
  cases hl : get_share_object_ID cfg k o n with
  | error e => simp [createSharedObject, hl] at h
  | ok id =>
    by_cases hid : id = cfg.E_SHARED_MEM_NOT_EXISTS
    · subst hid
      cases ha : allocate_share_object cfg k with
      | error e => simp [createSharedObject, hl, ha] at h
      | ok res =>
        obtain ⟨ret, obj, ka⟩ := res
        by_cases hret : ret = cfg.E_NO_SHARE
        · simp only [createSharedObject, hl, ha, ne_eq, not_true_eq_false, if_false, hret,
            if_true, Except.ok.injEq, Prod.mk.injEq] at h
          obtain ⟨h1, h2⟩ := h
          subst h2
          refine Or.inr (Or.inl ⟨h1.symm, ?_⟩)
          cases obj with
          | none =>
            obtain ⟨_, g1, g2, _⟩ := allocate_none cfg k ka ret ha
            by_cases hk : cfg.USE_KHEAP = 1
            · exact Or.inr (g2 hk)
            · exact Or.inl (g1 hk)
          | some j =>
            have := (allocate_some cfg k ka ret j ha).1
            omega
        · cases obj with
          | none => simp [createSharedObject, hl, ha, hret] at h
          | some j =>
            obtain ⟨hrj, hlen, _⟩ := allocate_some cfg k ka ret j ha
            by_cases hfit : n.length + 1 ≤ cfg.NAME_SIZE
            · rw [create_eq cfg k ka o n sz w va ret j ka.shares[j] hl ha hret
                (List.getElem?_eq_getElem hlen) hfit] at h
              simp only [Except.ok.injEq, Prod.mk.injEq] at h
              obtain ⟨h1, h2⟩ := h
              subst h1
              exact Or.inr (Or.inr ⟨j, ka, ka.shares[j], hrj, rfl, rfl,
                List.getElem?_eq_getElem hlen, hfit, h2.symm⟩)
            · exfalso
              unfold createSharedObject at h
              simp only [hl, ha, ne_eq, not_true_eq_false, if_false, hret] at h
              rw [create_loop_eq cfg k.curenv va j _ 0 ka ka.shares[j]
                (List.getElem?_eq_getElem hlen)] at h
              have hfit2 : cfg.NAME_SIZE < n.length + 1 := by omega
              simp [List.getElem?_set_self hlen, hfit2] at h
    · simp only [createSharedObject, hl, ne_eq, hid, not_false_eq_true, if_true,
        Except.ok.injEq, Prod.mk.injEq] at h
      exact Or.inl ⟨h.1.symm, h.2.symm⟩

theorem getMappings_succ (cfg : Config) (dir va : Nat) (s : Share) (i rem : Nat) :
    getMappings cfg dir va s i (rem + 1) =
      { dir := dir, frame := s.framesStorage i, va := (va + i * PAGE_SIZE) % 2 ^ 32,
        perm := s.isWritable ||| cfg.PERM_USER } :: getMappings cfg dir va s (i + 1) rem := by
  simp only [getMappings, List.range_succ_eq_map, List.map_cons, List.map_map, Nat.add_zero]
  congr 1
  apply List.map_congr_left
  intro t _
  simp only [Function.comp, Nat.succ_eq_add_one]
  have e1 : i + (t + 1) = i + 1 + t := by omega
  rw [e1]

theorem getMappings_getElem (cfg : Config) (dir va : Nat) (s : Share) (rem t : Nat)
    (h : t < rem) :
    (getMappings cfg dir va s 0 rem)[t]? =
      some { dir := dir, frame := s.framesStorage t, va := (va + t * PAGE_SIZE) % 2 ^ 32,
             perm := s.isWritable ||| cfg.PERM_USER } := by
  simp [getMappings, List.getElem?_range h]

theorem createMappings_getElem (cfg : Config) (dir va : Nat) (free : List Nat) (rem t : Nat)
    (h : t < rem) :
    (createMappings cfg dir va free 0 rem)[t]? =
      some { dir := dir, frame := free[t]?, va := (va + t * PAGE_SIZE) % 2 ^ 32,
             perm := cfg.PERM_WRITEABLE ||| cfg.PERM_USER } := by
  simp [createMappings, List.getElem?_range h]

/-- A run of the loop of `getSharedObject` that reaches its end touched nothing but the
mapping log and the frame reference counts, and found a frame for every page. -/
theorem get_loop_inv (cfg : Config) (dir va id : Nat) :
    ∀ (rem i : Nat) (k k1 : Kernel) (s : Share), k.shares[id]? = some s →
      getSharedObject_loop cfg dir va id rem i k = .ok k1 →
      k1.shares = k.shares ∧ k1.MAX_SHARES = k.MAX_SHARES ∧ k1.curenv = k.curenv ∧
      k1.freeFrames = k.freeFrames ∧ k1.heap = k.heap ∧
      k1.mappings = k.mappings ++ getMappings cfg dir va s i rem ∧
      ∀ t, t < rem → ∃ f, s.framesStorage (i + t) = some f := by
  intro rem
  induction rem with
  | zero =>
    intro i k k1 s _ h
    simp only [getSharedObject_loop, Except.ok.injEq] at h
    subst h
    exact ⟨rfl, rfl, rfl, rfl, rfl, by simp [getMappings], fun t ht => by omega⟩
  | succ rem ih =>
    intro i k k1 s hs h
    simp only [getSharedObject_loop, hs, get_frame_from_storage] at h
    cases hf : s.framesStorage i with
    | none => simp [hf] at h
    | some f =>
      simp only [hf] at h
      obtain ⟨h1, h2, h3, h4, h5, h6, h7⟩ := ih (i + 1) _ k1 s (by simpa [map_frame] using hs) h
      refine ⟨by simpa [map_frame] using h1, by simpa [map_frame] using h2,
        by simpa [map_frame] using h3, by simpa [map_frame] using h4,
        by simpa [map_frame] using h5, ?_, ?_⟩
      · rw [h6, getMappings_succ, hf]
        simp [map_frame]
      · intro t ht
        cases t with
        | zero => exact ⟨f, by simpa using hf⟩
        | succ t =>
          obtain ⟨g, hg⟩ := h7 t (by omega)
          exact ⟨g, by rw [← hg]; congr 1; omega⟩

/-- A call of `getSharedObject` that returns a region id: the id is the index the lookup
found, the registry is untouched, and one mapping per page of that slot was installed. -/
theorem get_ok_inv (cfg : Config) (k k1 : Kernel) (o : Int) (n : List Nat) (va : Nat) (r : Int)
    (h : getSharedObject cfg k o n va = .ok (r, k1)) (hr : r ≠ cfg.E_SHARED_MEM_NOT_EXISTS) :
    get_share_object_ID cfg k o n = .ok r ∧
    ∃ (j : Nat) (s : Share), r = (j : Int) ∧ j < k.MAX_SHARES ∧ k.shares[j]? = some s ∧
      s.holds o n ∧
      (∀ j', j' < j → ∃ s', k.shares[j']? = some s' ∧ ¬ s'.holds o n) ∧
      k1.shares = k.shares ∧ k1.MAX_SHARES = k.MAX_SHARES ∧ k1.curenv = k.curenv ∧
      k1.freeFrames = k.freeFrames ∧ k1.heap = k.heap ∧
      k1.mappings = k.mappings ++ getMappings cfg k.curenv va s 0 (s.size / PAGE_SIZE) ∧
      ∀ t, t < s.size / PAGE_SIZE → ∃ f, s.framesStorage t = some f := by
  cases hl : get_share_object_ID cfg k o n with
  | error e => simp [getSharedObject, hl] at h
  | ok id =>
    by_cases hid : id = cfg.E_SHARED_MEM_NOT_EXISTS
    · simp only [getSharedObject, hl, hid, if_true, Except.ok.injEq, Prod.mk.injEq] at h
      exact absurd h.1.symm hr
    · rcases lookup_loop_inv cfg k.shares o n k.MAX_SHARES 0 id hl with ⟨h1, _⟩ |
        ⟨j, s, _, hj, hrj, hs, hh, hb⟩
      · exact absurd h1 hid
      · subst hrj
        simp only [getSharedObject, hl, hid, if_false, Int.toNat_ofNat, hs] at h
        cases hloop : getSharedObject_loop cfg k.curenv va j (s.size / PAGE_SIZE) 0 k with
        | error e => simp [hloop] at h
        | ok k2 =>
          simp only [hloop, Except.ok.injEq, Prod.mk.injEq] at h
          obtain ⟨h1, h2⟩ := h
          subst h2
          obtain ⟨g1, g2, g3, g4, g5, g6, g7⟩ :=
            get_loop_inv cfg k.curenv va j (s.size / PAGE_SIZE) 0 k k2 s hs hloop
          refine ⟨by rw [h1], j, s, h1.symm, by omega, hs, hh,
            fun j' hj' => hb j' (Nat.zero_le _) hj', g1, g2, g3, g4, g5, g6, ?_⟩
          intro t ht
          simpa using g7 t ht

/-- Whatever `getSharedObject` returns is what the lookup returned, and the registry is
untouched. -/
theorem get_returns_lookup (cfg : Config) (k k1 : Kernel) (o : Int) (n : List Nat) (va : Nat)
    (r : Int) (h : getSharedObject cfg k o n va = .ok (r, k1)) :
    get_share_object_ID cfg k o n = .ok r ∧ k1.shares = k.shares ∧
      k1.MAX_SHARES = k.MAX_SHARES := by
  by_cases hr : r = cfg.E_SHARED_MEM_NOT_EXISTS
  · cases hl : get_share_object_ID cfg k o n with
    | error e => simp [getSharedObject, hl] at h
    | ok id =>
      by_cases hid : id = cfg.E_SHARED_MEM_NOT_EXISTS
      · simp only [getSharedObject, hl, hid, if_true, Except.ok.injEq, Prod.mk.injEq] at h
        rw [hid, ← h.1, ← h.2]
        exact ⟨rfl, rfl, rfl⟩
      · exfalso
        simp only [getSharedObject, hl, hid, if_false] at h
        split at h
        · simp at h
        · split at h
          · simp at h
          · simp only [Except.ok.injEq, Prod.mk.injEq] at h
            exact hid (h.1.trans hr)
  · obtain ⟨g1, _, _, _, _, _, _, _, g2, g3, _⟩ := get_ok_inv cfg k k1 o n va r h hr
    exact ⟨g1, g2, g3⟩

theorem created_of_alloc (cfg : Config) (k ka : Kernel) (o : Int) (n : List Nat)
    (sz w va : Nat) (r : Int) (j : Nat) (s : Share)
    (hl : get_share_object_ID cfg k o n = .ok cfg.E_SHARED_MEM_NOT_EXISTS)
    (ha : allocate_share_object cfg k = .ok (r, some j, ka))
    (hs : ka.shares[j]? = some s) (hfit : n.length + 1 ≤ cfg.NAME_SIZE) :
    Created cfg k (createdState cfg ka k.curenv j s o n sz w va) o n sz w va j
      (createdSlot ka s o n sz w) := by
  obtain ⟨_, hlen, hM, hmono, hle, hoth, hfree, ⟨sa, hsa, hsae, hsa1, hsa2⟩, hc, hf, hrf, hm⟩ :=
    allocate_some cfg k ka r j ha
  rw [hs] at hsa
  cases hsa
  exact {
    inMax := hM
    leMax := hle
    maxMono := hmono
    slot := by simp only [createdState, createdSlot]; exact List.getElem?_set_self hlen
    occupied := hsae
    owner := rfl
    named := rfl
    sized := rfl
    flag := rfl
    refs := rfl
    storage := ⟨s.framesStorage, by simp only [createdSlot]; rw [hf], hsa1,
      fun hk s0 hs0 => by rw [hsa2 hk s0 hs0]⟩
    others := fun i hi hne => by
      simp only [createdState]
      rw [List.getElem?_set_ne (Ne.symm hne)]
      exact hoth i hi hne
    wasFree := hfree
    fresh := hl
    fits := hfit
    env := hc
    frames := by simp only [createdState]; rw [hf]
    frameRefs := hrf
    maps := by simp only [createdState]; rw [hf, hm] }

/-- The three ways in which `createSharedObject` returns, by their effect. -/
theorem create_cases (cfg : Config) (k k1 : Kernel) (o : Int) (n : List Nat) (sz w va : Nat)
    (r : Int) (hN : cfg.E_NO_SHARE < 0)
    (h : createSharedObject cfg k o n sz w va = .ok (r, k1)) :
    (r = cfg.E_SHARED_MEM_EXISTS ∧ k1 = k) ∨
    (r = cfg.E_NO_SHARE ∧ (k1 = k ∨ (k1.shares = [] ∧ k1.MAX_SHARES = k.MAX_SHARES))) ∨
    (∃ (j : Nat) (s1 : Share), r = (j : Int) ∧ Created cfg k k1 o n sz w va j s1) := by
  rcases create_inv cfg k k1 o n sz w va r hN h with h1 | h1 | ⟨j, ka, s, hrj, hl, ha, hs, hfit, hk1⟩
  · exact Or.inl h1
  · exact Or.inr (Or.inl h1)
  · subst hk1
    exact Or.inr (Or.inr ⟨j, _, hrj, created_of_alloc cfg k ka o n sz w va r j s hl ha hs hfit⟩)

theorem create_ok_facts (cfg : Config) (k k1 : Kernel) (o : Int) (n : List Nat) (sz w va : Nat)
    (r : Int) (hE : cfg.E_SHARED_MEM_EXISTS < 0) (hN : cfg.E_NO_SHARE < 0)
    (h : createSharedObject cfg k o n sz w va = .ok (r, k1)) (hr : 0 ≤ r) :
    ∃ (j : Nat) (s1 : Share), r = (j : Int) ∧ Created cfg k k1 o n sz w va j s1 := by
  rcases create_cases cfg k k1 o n sz w va r hN h with ⟨h1, _⟩ | ⟨h1, _⟩ | h1
  · omega
  · omega
  · exact h1

/-- After a successful create the key is held by the returned slot and by no slot before it,
so the lookup returns exactly that slot. -/
theorem lookup_after_create (cfg : Config) (k k1 : Kernel) (o : Int) (n : List Nat)
    (sz w va j : Nat) (s1 : Share) (hX : cfg.E_SHARED_MEM_NOT_EXISTS < 0)
    (hc : Created cfg k k1 o n sz w va j s1) :
    s1.holds o n ∧ (∀ j', j' < j → ∃ s', k1.shares[j']? = some s' ∧ ¬ s'.holds o n) ∧
      ∀ e, get_share_object_ID cfg { k1 with curenv := e } o n = .ok (j : Int) := by
  have hh : s1.holds o n := ⟨hc.occupied, hc.owner, hc.named.symm⟩
  have hlenj : j < k1.shares.length := (List.getElem?_eq_some.mp hc.slot).1
  have hbefore : ∀ j', j' < j → ∃ s', k1.shares[j']? = some s' ∧ ¬ s'.holds o n := by
    intro j' hj'
    rcases lookup_loop_inv cfg k.shares o n k.MAX_SHARES 0 _ hc.fresh with ⟨_, hall⟩ |
      ⟨i, s, _, hi, hri, _⟩
    · by_cases hjM : j' < k.MAX_SHARES
      · obtain ⟨s', hs', hn'⟩ := hall j' (Nat.zero_le _) (by omega)
        exact ⟨s', by rw [hc.others j' hjM (by omega)]; exact hs', hn'⟩
      · have := hc.leMax
        omega
    · omega
  refine ⟨hh, hbefore, fun e => ?_⟩
  exact lookup_loop_found cfg k1.shares o n k1.MAX_SHARES 0 j s1 (Nat.zero_le _)
    (by have := hc.inMax; omega) hc.slot hh (fun j' _ h2 => hbefore j' h2)

/-- C10. Capacity error without growth: with `USE_KHEAP != 1`, every one of the
`MAX_SHARES` slots occupied and `(owner, name)` carried by none of them,
`createSharedObject` returns `E_NO_SHARE` and the whole kernel state (every slot,
`MAX_SHARES`, the mappings) is exactly as before. -/
theorem create_full_table_without_growth (cfg : Config) (k : Kernel) (o : Int) (n : List Nat)
    (sz w va : Nat) (hk : cfg.USE_KHEAP ≠ 1)
    (hfull : ∀ j, j < k.MAX_SHARES → ∃ s, k.shares[j]? = some s ∧ s.empty = 0)
    (hnew : ∀ j s, j < k.MAX_SHARES → k.shares[j]? = some s → ¬ (s.ownerID = o ∧ s.name = n)) :
    createSharedObject cfg k o n sz w va = .ok (cfg.E_NO_SHARE, k) := by
  have hl : get_share_object_ID cfg k o n = .ok cfg.E_SHARED_MEM_NOT_EXISTS := by
    apply lookup_loop_none
    intro j _ hj
    obtain ⟨s, hs, _⟩ := hfull j (by omega)
    exact ⟨s, hs, fun hh => hnew j s (by omega) hs ⟨hh.2.1, hh.2.2.symm⟩⟩
  have hscan : allocate_share_object_scan k.shares k.MAX_SHARES 0 = .ok none :=
    scan_full k.shares k.MAX_SHARES 0 (fun j _ hj => hfull j (by omega))
  simp [createSharedObject, hl, allocate_share_object, hscan, hk]

/-- The capacity error on the full two-slot sample registry. -/
theorem create_full_table_without_growth_witness :
    createSharedObject sampleConfig fullKernel 9 buf 4096 1 0x1000 =
      .ok (sampleConfig.E_NO_SHARE, fullKernel) :=
  create_full_table_without_growth sampleConfig fullKernel 9 buf 4096 1 0x1000 (by decide)
    (fun j hj => by
      have hj2 : j < 2 := hj
      interval_cases j
      · exact ⟨_, rfl, rfl⟩
      · exact ⟨_, rfl, rfl⟩)
    (fun j s hj hs => by
      have hj2 : j < 2 := hj
      interval_cases j
      · have e : s = { Share.zero with ownerID := 7, name := [97], size := 4096, references := 1 } := by
          have : fullKernel.shares[0]? = some _ := rfl
          rw [this] at hs
          exact (Option.some.inj hs).symm
        subst e
        decide
      · have e : s = { Share.zero with ownerID := 7, name := [98], size := 4096, references := 1 } := by
          have : fullKernel.shares[1]? = some _ := rfl
          rw [this] at hs
          exact (Option.some.inj hs).symm
        subst e
        decide)

/-- C9, on the code: `freeSharedObject` never returns: whatever the state, the id and the address, the
call ends in the kernel panic of the unimplemented body, so no call returns 0 and no region
is reclaimed. -/
theorem freeSharedObject_panics (cfg : Config) (k : Kernel) (sharedObjectID : Int)
    (startVA : Nat) :
    freeSharedObject cfg k sharedObjectID startVA = .error Fault.panic := rfl

/-- C4. Create rejects duplicates: after a `createSharedObject(owner, name, ..)` that
returned a region id, the next `createSharedObject(owner, name, ..)`, from any environment
and with any size, flag and address, returns `E_SHARED_MEM_EXISTS` and changes nothing. -/
theorem create_twice_exists (cfg : Config) (k k1 : Kernel) (o : Int) (n : List Nat)
    (sz1 w1 va1 : Nat) (id : Int)
    (hX : cfg.E_SHARED_MEM_NOT_EXISTS < 0) (hE : cfg.E_SHARED_MEM_EXISTS < 0)
    (hN : cfg.E_NO_SHARE < 0)
    (h : createSharedObject cfg k o n sz1 w1 va1 = .ok (id, k1)) (hid : 0 ≤ id)
    (e sz2 w2 va2 : Nat) :
    createSharedObject cfg { k1 with curenv := e } o n sz2 w2 va2 =
      .ok (cfg.E_SHARED_MEM_EXISTS, { k1 with curenv := e }) := by
  obtain ⟨j, s1, _, hc⟩ := create_ok_facts cfg k k1 o n sz1 w1 va1 id hE hN h hid
  have hl := (lookup_after_create cfg k k1 o n sz1 w1 va1 j s1 hX hc).2.2 e
  have hne : (j : Int) ≠ cfg.E_SHARED_MEM_NOT_EXISTS := by omega
  simp [createSharedObject, hl, hne]

/-- The second create of `"buf"` for owner 7, from environment 9 with other arguments. -/
theorem create_twice_exists_witness :
    createSharedObject sampleConfig { afterCreateRO with curenv := 9 } 7 buf 12288 1 0x8000 =
      .ok (sampleConfig.E_SHARED_MEM_EXISTS, { afterCreateRO with curenv := 9 }) :=
  create_twice_exists sampleConfig sampleKernel afterCreateRO 7 buf 4097 0 0x1000 0
    (by decide) (by decide) (by decide) rfl (by decide) 9 12288 1 0x8000

/-- C2. Read-only enforcement: when `getSharedObject` returns the id of a region whose
`isWritable` flag is 0, the calls of `map_frame` it made are one per page
`i < size / PAGE_SIZE`, in the caller's page directory at `virtual_address + i * PAGE_SIZE`,
and the permission of each has no bit of `PERM_WRITEABLE` (given that `PERM_USER` has none),
whichever environment is the caller. -/
theorem get_read_only_not_writable (cfg : Config) (k k1 : Kernel) (o : Int) (n : List Nat)
    (va : Nat) (r : Int) (s : Share)
    (hU : cfg.PERM_USER &&& cfg.PERM_WRITEABLE = 0)
    (h : getSharedObject cfg k o n va = .ok (r, k1)) (hr : r ≠ cfg.E_SHARED_MEM_NOT_EXISTS)
    (hs : k.shares[r.toNat]? = some s) (hw : s.isWritable = 0) :
    ∃ new, k1.mappings = k.mappings ++ new ∧ new.length = s.size / PAGE_SIZE ∧
      ∀ i, i < s.size / PAGE_SIZE → ∃ m, new[i]? = some m ∧ m.dir = k.curenv ∧
        m.va = (va + i * PAGE_SIZE) % 2 ^ 32 ∧ m.perm &&& cfg.PERM_WRITEABLE = 0 := by
  obtain ⟨_, j, s', hrj, _, hs', _, _, _, _, _, _, _, hm, _⟩ := get_ok_inv cfg k k1 o n va r h hr
  subst hrj
  rw [Int.toNat_ofNat, hs'] at hs
  obtain rfl : s' = s := Option.some.inj hs
  refine ⟨_, hm, by simp [getMappings], fun i hi =>
    ⟨_, getMappings_getElem cfg k.curenv va s' _ i hi, rfl, rfl, ?_⟩⟩
  simp only [hw, Nat.zero_or]
  exact hU

/-- C3, on the code: `getSharedObject` uses the value of the `isWritable` flag itself as
permission bits. When it returns the id of a region whose flag is true (non-zero) but has no
bit of `PERM_WRITEABLE` (the flag value 1 when the write bit is not bit 0), the permission
of every `map_frame` call it made is `isWritable | PERM_USER`, which has no bit of
`PERM_WRITEABLE`: the writable region is mapped read-only. -/
theorem get_writable_flag_not_writable (cfg : Config) (k k1 : Kernel) (o : Int)
    (n : List Nat) (va : Nat) (r : Int) (s : Share)
    (hU : cfg.PERM_USER &&& cfg.PERM_WRITEABLE = 0)
    (h : getSharedObject cfg k o n va = .ok (r, k1)) (hr : r ≠ cfg.E_SHARED_MEM_NOT_EXISTS)
    (hs : k.shares[r.toNat]? = some s) (hnz : s.isWritable ≠ 0)
    (hw : s.isWritable &&& cfg.PERM_WRITEABLE = 0) :
    ∃ new, k1.mappings = k.mappings ++ new ∧ new.length = s.size / PAGE_SIZE ∧
      ∀ i, i < s.size / PAGE_SIZE → ∃ m, new[i]? = some m ∧ m.dir = k.curenv ∧
        m.va = (va + i * PAGE_SIZE) % 2 ^ 32 ∧ m.perm = s.isWritable ||| cfg.PERM_USER ∧
        m.perm &&& cfg.PERM_WRITEABLE = 0 := by
  obtain ⟨_, j, s', hrj, _, hs', _, _, _, _, _, _, _, hm, _⟩ := get_ok_inv cfg k k1 o n va r h hr
  subst hrj
  rw [Int.toNat_ofNat, hs'] at hs
  obtain rfl : s' = s := Option.some.inj hs
  refine ⟨_, hm, by simp [getMappings], fun i hi =>
    ⟨_, getMappings_getElem cfg k.curenv va s' _ i hi, rfl, rfl, rfl, ?_⟩⟩
  simp only [Nat.and_distrib_right, hw, hU, Nat.or_zero]

/-- The two mappings environment 9 gets of the read-only `"buf"`. -/
theorem get_read_only_not_writable_witness :
    ∃ new, afterGetRO.mappings = afterCreateRO.mappings ++ new ∧ new.length = 2 ∧
      ∀ i, i < 2 → ∃ m, new[i]? = some m ∧ m.dir = 9 ∧
        m.va = (0x4000 + i * PAGE_SIZE) % 2 ^ 32 ∧ m.perm &&& 2 = 0 :=
  get_read_only_not_writable sampleConfig { afterCreateRO with curenv := 9 } afterGetRO 7 buf
    0x4000 0 regionRO (by decide) rfl (by decide) rfl rfl

/-- The two mappings environment 9 gets of the `"buf"` created with flag 1: permission 5,
no write bit. -/
theorem get_writable_flag_not_writable_witness :
    ∃ new, afterGetRW.mappings = afterCreateRW.mappings ++ new ∧ new.length = 2 ∧
      ∀ i, i < 2 → ∃ m, new[i]? = some m ∧ m.dir = 9 ∧
        m.va = (0x4000 + i * PAGE_SIZE) % 2 ^ 32 ∧ m.perm = 1 ||| 4 ∧ m.perm &&& 2 = 0 :=
  get_writable_flag_not_writable sampleConfig { afterCreateRW with curenv := 9 } afterGetRW
    7 buf 0x4000 0 regionRW (by decide) rfl (by decide) rfl (by decide) (by decide)

/-- Whatever values the two permission constants have (a non-zero write mask that does not
overlap the user mask), one of the flag values 1 and 2 yields a permission
`isWritable | PERM_USER` that lacks the write mask. -/
theorem flag_value_misses_write_mask (cfg : Config) (hW : cfg.PERM_WRITEABLE ≠ 0)
    (hU : cfg.PERM_USER &&& cfg.PERM_WRITEABLE = 0) :
    (1 ||| cfg.PERM_USER) &&& cfg.PERM_WRITEABLE ≠ cfg.PERM_WRITEABLE ∨
      (2 ||| cfg.PERM_USER) &&& cfg.PERM_WRITEABLE ≠ cfg.PERM_WRITEABLE := by
  by_contra hc
  push_neg at hc
  obtain ⟨h1, h2⟩ := hc
  simp only [Nat.and_distrib_right, hU, Nat.or_zero] at h1 h2
  apply hW
  calc cfg.PERM_WRITEABLE = 1 &&& cfg.PERM_WRITEABLE := h1.symm
    _ = 1 &&& (2 &&& cfg.PERM_WRITEABLE) := by rw [h2]
    _ = (1 &&& 2) &&& cfg.PERM_WRITEABLE := by rw [Nat.and_assoc]
    _ = 0 := by simp

theorem ROUNDUP_page (s : Nat) (hs : s ≤ 2 ^ 32 - PAGE_SIZE) :
    PAGE_SIZE ∣ ROUNDUP s PAGE_SIZE ∧ s ≤ ROUNDUP s PAGE_SIZE ∧
      ∀ m, PAGE_SIZE ∣ m → s ≤ m → ROUNDUP s PAGE_SIZE ≤ m := by
  have e32 : (2 : Nat) ^ 32 = 4294967296 := by norm_num
  simp only [PAGE_SIZE, e32] at hs
  simp only [ROUNDUP, PAGE_SIZE, e32]
  have h1 : (s + 4096 - 1) % 4294967296 = s + 4095 := by omega
  rw [h1]
  refine ⟨?_, by omega, ?_⟩
  · apply Nat.dvd_of_mod_eq_zero
    omega
  · intro m hm hsm
    have := Nat.mod_eq_zero_of_dvd hm
    omega

theorem get_loop_ok (cfg : Config) (dir va id : Nat) :
    ∀ (rem i : Nat) (k : Kernel) (s : Share), k.shares[id]? = some s →
      (∀ t, t < rem → ∃ f, s.framesStorage (i + t) = some f) →
      ∃ k1, getSharedObject_loop cfg dir va id rem i k = .ok k1 := by
  intro rem
  induction rem with
  | zero => intro i k s _ _; exact ⟨k, rfl⟩
  | succ rem ih =>
    intro i k s hs hall
    obtain ⟨f, hf⟩ := hall 0 (by omega)
    simp only [Nat.add_zero] at hf
    simp only [getSharedObject_loop, hs, get_frame_from_storage, hf]
    apply ih (i + 1) _ s (by simpa [map_frame] using hs)
    intro t ht
    obtain ⟨g, hg⟩ := hall (t + 1) (by omega)
    exact ⟨g, by rw [← hg]; congr 1; omega⟩

theorem lost_lookup (cfg : Config) (k : Kernel) (o : Int) (n : List Nat) (h : Lost k) :
    get_share_object_ID cfg k o n = .error .outOfBounds := by
  obtain ⟨h1, h2⟩ := h
  obtain ⟨m, hm⟩ : ∃ m, k.MAX_SHARES = m + 1 := ⟨k.MAX_SHARES - 1, by omega⟩
  simp [get_share_object_ID, hm, h1, get_share_object_ID_loop]

theorem live_lookup (cfg : Config) (k : Kernel) (o : Int) (n : List Nat) (j : Nat) (s1 : Share)
    (hh : s1.holds o n) (h : Live o n j s1 k) :
    get_share_object_ID cfg k o n = .ok (j : Int) :=
  lookup_loop_found cfg k.shares o n k.MAX_SHARES 0 j s1 (Nat.zero_le _)
    (by have := h.1; omega) h.2.1 hh (fun j' _ h2 => h.2.2 j' h2)

/-- A Get of a live region whose pages all have a frame returns the slot index. -/
theorem live_get_returns (cfg : Config) (k : Kernel) (o : Int) (n : List Nat) (va j : Nat)
    (s1 : Share) (hX : cfg.E_SHARED_MEM_NOT_EXISTS < 0) (hh : s1.holds o n)
    (hlive : Live o n j s1 k)
    (hall : ∀ t, t < s1.size / PAGE_SIZE → ∃ f, s1.framesStorage t = some f) :
    ∃ k3, getSharedObject cfg k o n va = .ok ((j : Int), k3) := by
  have hl := live_lookup cfg k o n j s1 hh hlive
  have hne : (j : Int) ≠ cfg.E_SHARED_MEM_NOT_EXISTS := by omega
  have hs : k.shares[j]? = some s1 := hlive.2.1
  obtain ⟨k3, hk3⟩ := get_loop_ok cfg k.curenv va j (s1.size / PAGE_SIZE) 0 k s1 hs
    (fun t ht => by rw [Nat.zero_add]; exact hall t ht)
  refine ⟨k3, ?_⟩
  simp only [getSharedObject, hl, hne, if_false, Int.toNat_ofNat, hs, hk3]

/-- After a create whose pages all got a frame, every page of the new region has one. -/
theorem created_frames_present (cfg : Config) (k k1 : Kernel) (o : Int) (n : List Nat)
    (sz w va j : Nat) (s1 : Share) (hc : Created cfg k k1 o n sz w va j s1)
    (hfr : ROUNDUP sz PAGE_SIZE / PAGE_SIZE ≤ k.freeFrames.length) :
    ∀ t, t < s1.size / PAGE_SIZE → ∃ f, s1.framesStorage t = some f := by
  intro t ht
  obtain ⟨base, hst, _, _⟩ := hc.storage
  rw [hc.sized] at ht
  rw [hst]
  simp only [storageAfter]
  rw [if_pos ⟨Nat.zero_le _, by omega⟩, Nat.sub_zero]
  have hlt : t < k.freeFrames.length := by omega
  exact ⟨k.freeFrames[t], List.getElem?_eq_getElem hlt⟩

theorem live_create (cfg : Config) (k k1 : Kernel) (o o' : Int) (n n' : List Nat)
    (sz w va j : Nat) (s1 : Share) (r : Int)
    (hX : cfg.E_SHARED_MEM_NOT_EXISTS < 0) (hN : cfg.E_NO_SHARE < 0)
    (hh : s1.holds o n) (hinv : Live o n j s1 k ∨ Lost k)
    (h : createSharedObject cfg k o' n' sz w va = .ok (r, k1)) :
    Live o n j s1 k1 ∨ Lost k1 := by
  rcases hinv with hlive | hlost
  · rcases create_cases cfg k k1 o' n' sz w va r hN h with ⟨_, h1⟩ | ⟨_, h1 | h1⟩ |
      ⟨j', s', _, hc⟩
    · rw [h1]; exact Or.inl hlive
    · rw [h1]; exact Or.inl hlive
    · exact Or.inr ⟨h1.1, by rw [h1.2]; have := hlive.1; omega⟩
    · obtain ⟨hjM, hjs, hjb⟩ := hlive
      have hne : j ≠ j' := by
        intro e
        subst e
        exact hc.wasFree s1 hjs hjM hh.1
      have hkey : ¬ (o' = o ∧ n' = n) := by
        rintro ⟨e1, e2⟩
        subst e1 e2
        have := live_lookup cfg k o' n' j s1 hh ⟨hjM, hjs, hjb⟩
        rw [hc.fresh] at this
        have := Except.ok.inj this
        omega
      refine Or.inl ⟨by have := hc.maxMono; omega, by rw [hc.others j hjM hne]; exact hjs, ?_⟩
      intro i hi
      by_cases hij : i = j'
      · subst hij
        refine ⟨s', hc.slot, fun hs' => hkey ⟨?_, ?_⟩⟩
        · rw [← hc.owner]; exact hs'.2.1
        · rw [← hc.named]; exact hs'.2.2.symm
      · rw [hc.others i (by omega) hij]
        exact hjb i hi
  · have := lost_lookup cfg k o' n' hlost
    simp [createSharedObject, this] at h

theorem live_get (cfg : Config) (k k1 : Kernel) (o o' : Int) (n n' : List Nat)
    (va j : Nat) (s1 : Share) (r : Int) (hinv : Live o n j s1 k ∨ Lost k)
    (h : getSharedObject cfg k o' n' va = .ok (r, k1)) :
    Live o n j s1 k1 ∨ Lost k1 := by
  obtain ⟨_, h1, h2⟩ := get_returns_lookup cfg k k1 o' n' va r h
  unfold Live Lost at *
  rw [h1, h2]
  exact hinv

theorem live_run (cfg : Config) (o : Int) (n : List Nat) (j : Nat) (s1 : Share)
    (hX : cfg.E_SHARED_MEM_NOT_EXISTS < 0) (hN : cfg.E_NO_SHARE < 0) (hh : s1.holds o n) :
    ∀ (calls : List Call) (k k2 : Kernel), Live o n j s1 k ∨ Lost k →
      runCalls cfg calls k = some k2 → Live o n j s1 k2 ∨ Lost k2 := by
  intro calls
  induction calls with
  | nil =>
    intro k k2 hinv h
    simp only [runCalls, Option.some.injEq] at h
    rw [← h]; exact hinv
  | cons c rest ih =>
    intro k k2 hinv h
    cases c with
    | create e o' n' sz w va =>
      simp only [runCalls] at h
      cases hc : createSharedObject cfg { k with curenv := e } o' n' sz w va with
      | error err => simp [hc] at h
      | ok res =>
        simp only [hc] at h
        exact ih res.2 k2 (live_create cfg _ res.2 o o' n n' sz w va j s1 res.1 hX hN hh
          (by simpa [Live, Lost] using hinv) hc) h
    | get e o' n' va =>
      simp only [runCalls] at h
      cases hc : getSharedObject cfg { k with curenv := e } o' n' va with
      | error err => simp [hc] at h
      | ok res =>
        simp only [hc] at h
        exact ih res.2 k2 (live_get cfg _ res.2 o o' n n' va j s1 res.1
          (by simpa [Live, Lost] using hinv) hc) h

theorem run_gets_registry (cfg : Config) (o : Int) (n : List Nat) :
    ∀ (calls : List (Nat × Nat)) (k k2 : Kernel),
      runCalls cfg (calls.map (fun c => Call.get c.1 o n c.2)) k = some k2 →
      k2.shares = k.shares ∧ k2.MAX_SHARES = k.MAX_SHARES := by
  intro calls
  induction calls with
  | nil =>
    intro k k2 h
    simp only [List.map_nil, runCalls, Option.some.injEq] at h
    rw [← h]; exact ⟨rfl, rfl⟩
  | cons c rest ih =>
    intro k k2 h
    simp only [List.map_cons, runCalls] at h
    cases hc : getSharedObject cfg { k with curenv := c.1 } o n c.2 with
    | error err => simp [hc] at h
    | ok res =>
      simp only [hc] at h
      obtain ⟨_, g1, g2⟩ := get_returns_lookup cfg _ res.2 o n c.2 res.1 hc
      obtain ⟨i1, i2⟩ := ih res.2 k2 h
      exact ⟨i1.trans g1, i2.trans g2⟩

/-- C5. Shared frames: after a `createSharedObject(owner, name, size, w, va1)` that returned
a region id, a `getSharedObject(owner, name, va2)` from any environment returns (with that
id) when every page of the create got its frame, and whenever it returns, for every page
`i < ROUNDUP(size) / PAGE_SIZE` the `i`-th `map_frame` call of Get (caller's page directory,
address `va2 + i * PAGE_SIZE`) carries the very frame of the `i`-th `map_frame` call of
Create (creator's page directory, address `va1 + i * PAGE_SIZE`). -/
theorem get_maps_the_created_frames (cfg : Config) (k k1 : Kernel) (o : Int) (n : List Nat)
    (sz w va1 va2 e : Nat) (id : Int)
    (hX : cfg.E_SHARED_MEM_NOT_EXISTS < 0) (hE : cfg.E_SHARED_MEM_EXISTS < 0)
    (hN : cfg.E_NO_SHARE < 0)
    (h1 : createSharedObject cfg k o n sz w va1 = .ok (id, k1)) (hid : 0 ≤ id) :
    (ROUNDUP sz PAGE_SIZE / PAGE_SIZE ≤ k.freeFrames.length →
      ∃ k2, getSharedObject cfg { k1 with curenv := e } o n va2 = .ok (id, k2)) ∧
    ∀ r k2, getSharedObject cfg { k1 with curenv := e } o n va2 = .ok (r, k2) →
      k1.mappings.length = k.mappings.length + ROUNDUP sz PAGE_SIZE / PAGE_SIZE ∧
      k2.mappings.length = k1.mappings.length + ROUNDUP sz PAGE_SIZE / PAGE_SIZE ∧
      ∀ i, i < ROUNDUP sz PAGE_SIZE / PAGE_SIZE → ∃ f,
        k1.mappings[k.mappings.length + i]? =
          some { dir := k.curenv, frame := some f, va := (va1 + i * PAGE_SIZE) % 2 ^ 32,
                 perm := cfg.PERM_WRITEABLE ||| cfg.PERM_USER } ∧
        k2.mappings[k1.mappings.length + i]? =
          some { dir := e, frame := some f, va := (va2 + i * PAGE_SIZE) % 2 ^ 32,
                 perm := w ||| cfg.PERM_USER } := by
  obtain ⟨j, s1, hj, hc⟩ := create_ok_facts cfg k k1 o n sz w va1 id hE hN h1 hid
  obtain ⟨hh, hb, hl⟩ := lookup_after_create cfg k k1 o n sz w va1 j s1 hX hc
  subst hj
  refine ⟨fun hfr => live_get_returns cfg { k1 with curenv := e } o n va2 j s1 hX hh
    ⟨hc.inMax, hc.slot, hb⟩ (created_frames_present cfg k k1 o n sz w va1 j s1 hc hfr), ?_⟩
  intro r k2 h2
  have hrj0 : r = (j : Int) := by
    have := (get_returns_lookup cfg _ k2 o n va2 r h2).1
    rw [hl e] at this
    exact (Except.ok.inj this).symm
  have hrne : r ≠ cfg.E_SHARED_MEM_NOT_EXISTS := by omega
  obtain ⟨hl2, j2, s2, hrj, _, hs2, _, _, _, _, _, _, _, hm, hfr⟩ :=
    get_ok_inv cfg _ k2 o n va2 r h2 hrne
  rw [hl e] at hl2
  have hjj : j2 = j := by
    have := Except.ok.inj hl2
    omega
  subst hjj
  have hss : s2 = s1 := by
    have := hc.slot
    simp only at hs2
    rw [this] at hs2
    exact (Option.some.inj hs2).symm
  subst hss
  obtain ⟨base, hst, _, _⟩ := hc.storage
  simp only at hm
  rw [hc.sized] at hm hfr
  refine ⟨by rw [hc.maps]; simp [createMappings], by rw [hm]; simp [getMappings], fun i hi => ?_⟩
  obtain ⟨f, hf⟩ := hfr i hi
  have hfree : k.freeFrames[i]? = some f := by
    rw [← hf, hst]
    simp only [storageAfter]
    rw [if_pos ⟨Nat.zero_le _, by omega⟩, Nat.sub_zero]
  refine ⟨f, ?_, ?_⟩
  · rw [hc.maps, List.getElem?_append_right (by omega), Nat.add_sub_cancel_left,
      createMappings_getElem cfg _ va1 _ _ i hi, hfree]
  · rw [hm, List.getElem?_append_right (by omega), Nat.add_sub_cancel_left,
      getMappings_getElem cfg _ va2 _ _ i hi, hf, hc.flag]

/-- Frames 100 and 101 of the creator are the frames environment 9 gets. -/
theorem get_maps_the_created_frames_witness :
    getSharedObject sampleConfig { afterCreateRO with curenv := 9 } 7 buf 0x4000 =
      .ok (0, afterGetRO) ∧
    afterCreateRO.mappings.length = 0 + 2 ∧ afterGetRO.mappings.length = 2 + 2 ∧
    ∀ i, i < 2 → ∃ f,
      afterCreateRO.mappings[0 + i]? =
        some { dir := 7, frame := some f, va := (0x1000 + i * PAGE_SIZE) % 2 ^ 32,
               perm := 2 ||| 4 } ∧
      afterGetRO.mappings[2 + i]? =
        some { dir := 9, frame := some f, va := (0x4000 + i * PAGE_SIZE) % 2 ^ 32,
               perm := 0 ||| 4 } :=
  have t := get_maps_the_created_frames sampleConfig sampleKernel afterCreateRO 7 buf
    4097 0 0x1000 0x4000 9 0 (by decide) (by decide) (by decide) rfl (by decide)
  ⟨rfl, t.2 0 afterGetRO rfl⟩

/-- C1, on the code: after a `createSharedObject` that returned region id `id`, any number
of returning `getSharedObject(owner, name, va)` calls (one per entry of `calls`, each from
its own environment at its own address) leaves the `references` field of slot `id` at 1;
with `n ≥ 1` calls it is therefore not `n + 1`. -/
theorem references_not_counted (cfg : Config) (k k1 k2 : Kernel) (o : Int) (n : List Nat)
    (sz w va : Nat) (id : Int) (calls : List (Nat × Nat))
    (hE : cfg.E_SHARED_MEM_EXISTS < 0) (hN : cfg.E_NO_SHARE < 0)
    (h : createSharedObject cfg k o n sz w va = .ok (id, k1)) (hid : 0 ≤ id)
    (hrun : runCalls cfg (calls.map (fun c => Call.get c.1 o n c.2)) k1 = some k2) :
    ∃ slot, k2.shares[id.toNat]? = some slot ∧ slot.references = 1 ∧
      (calls ≠ [] → slot.references ≠ calls.length + 1) := by
  obtain ⟨j, s1, hj, hc⟩ := create_ok_facts cfg k k1 o n sz w va id hE hN h hid
  subst hj
  obtain ⟨g1, _⟩ := run_gets_registry cfg o n calls k1 k2 hrun
  refine ⟨s1, by rw [Int.toNat_ofNat, g1]; exact hc.slot, hc.refs, fun hne => ?_⟩
  rw [hc.refs]
  have : 0 < calls.length := List.length_pos.mpr hne
  omega

/-- One create and one get of `"buf"`: the reference count of slot 0 is 1, not 2. -/
theorem references_not_counted_witness :
    ∃ slot, afterGetRO.shares[(0 : Int).toNat]? = some slot ∧ slot.references = 1 ∧
      ([((9 : Nat), (0x4000 : Nat))] ≠ [] →
        slot.references ≠ [((9 : Nat), (0x4000 : Nat))].length + 1) :=
  references_not_counted sampleConfig sampleKernel afterCreateRO afterGetRO 7 buf 4097 0 0x1000
    0 [(9, 0x4000)] (by decide) (by decide) rfl (by decide) rfl

/-- C7. Create and Get agree on the id: when `createSharedObject(owner, name, ..)` returns a
region id, that id is the index of the slot that now holds `(owner, name)`; after any run of
further create and get calls, a `getSharedObject(owner, name, va)` that returns, returns that
id; and it does return it when every page of the create got its frame and the registry has
not been lost to a refused `krealloc`. -/
theorem create_get_same_id (cfg : Config) (k k1 k2 : Kernel) (o : Int) (n : List Nat)
    (sz w va : Nat) (id : Int) (calls : List Call) (e va2 : Nat)
    (hX : cfg.E_SHARED_MEM_NOT_EXISTS < 0) (hE : cfg.E_SHARED_MEM_EXISTS < 0)
    (hN : cfg.E_NO_SHARE < 0)
    (h : createSharedObject cfg k o n sz w va = .ok (id, k1)) (hid : 0 ≤ id)
    (hrun : runCalls cfg calls k1 = some k2) :
    (∃ (j : Nat) (slot : Share), id = (j : Int) ∧ k1.shares[j]? = some slot ∧
      slot.empty = 0 ∧ slot.ownerID = o ∧ slot.name = n) ∧
    (∀ r k3, getSharedObject cfg { k2 with curenv := e } o n va2 = .ok (r, k3) → r = id) ∧
    (ROUNDUP sz PAGE_SIZE / PAGE_SIZE ≤ k.freeFrames.length → k2.shares ≠ [] →
      ∃ k3, getSharedObject cfg { k2 with curenv := e } o n va2 = .ok (id, k3)) := by
  obtain ⟨j, s1, hj, hc⟩ := create_ok_facts cfg k k1 o n sz w va id hE hN h hid
  subst hj
  obtain ⟨hh, hb, _⟩ := lookup_after_create cfg k k1 o n sz w va j s1 hX hc
  have hinv := live_run cfg o n j s1 hX hN hh calls k1 k2 (Or.inl ⟨hc.inMax, hc.slot, hb⟩) hrun
  refine ⟨⟨j, s1, rfl, hc.slot, hc.occupied, hc.owner, hc.named⟩, ?_, ?_⟩
  · intro r k3 hg
    obtain ⟨g1, _⟩ := get_returns_lookup cfg _ k3 o n va2 r hg
    rcases hinv with hlive | hlost
    · have hl := live_lookup cfg { k2 with curenv := e } o n j s1 hh
        (by simpa [Live] using hlive)
      rw [hl] at g1
      exact (Except.ok.inj g1).symm
    · have hl := lost_lookup cfg { k2 with curenv := e } o n (by simpa [Lost] using hlost)
      rw [hl] at g1
      cases g1
  · intro hfr htab
    rcases hinv with hlive | hlost
    · exact live_get_returns cfg { k2 with curenv := e } o n va2 j s1 hX hh
        (by simpa [Live] using hlive) (created_frames_present cfg k k1 o n sz w va j s1 hc hfr)
    · exact absurd hlost.1 htab

/-- Create returns id 0; after a get by environment 9, a get by environment 11 returns 0. -/
theorem create_get_same_id_witness :
    (∃ (j : Nat) (slot : Share), (0 : Int) = (j : Int) ∧ afterCreateRO.shares[j]? = some slot ∧
      slot.empty = 0 ∧ slot.ownerID = 7 ∧ slot.name = buf) ∧
    (∀ r k3, getSharedObject sampleConfig { afterGetRO with curenv := 11 } 7 buf 0x9000 =
      .ok (r, k3) → r = 0) ∧
    ∃ k3, getSharedObject sampleConfig { afterGetRO with curenv := 11 } 7 buf 0x9000 =
      .ok (0, k3) :=
  have t := create_get_same_id sampleConfig sampleKernel afterCreateRO afterGetRO 7 buf 4097 0
    0x1000 0 [Call.get 9 7 buf 0x4000] 11 0x9000 (by decide) (by decide) (by decide) rfl
    (by decide) rfl
  ⟨t.1, t.2.1, t.2.2 (by decide) (fun hnil => by
    have hlen : afterGetRO.shares.length = 2 := rfl
    rw [hnil] at hlen
    cases hlen)⟩

theorem scan_first (sh : List Share) :
    ∀ (rem i j : Nat) (s : Share), i ≤ j → j < i + rem → sh[j]? = some s → s.empty ≠ 0 →
      (∀ j', i ≤ j' → j' < j → ∃ s', sh[j']? = some s' ∧ s'.empty = 0) →
      allocate_share_object_scan sh rem i = .ok (some j) := by
  intro rem
  induction rem with
  | zero => intro i j s h1 h2; omega
  | succ rem ih =>
    intro i j s h1 h2 hs he hbefore
    by_cases hij : j = i
    · subst hij
      rw [scan_succ sh rem j s hs, if_pos he]
    · obtain ⟨s', hs', he'⟩ := hbefore i (le_refl i) (by omega)
      rw [scan_succ sh rem i s' hs', if_neg (by simp [he'])]
      exact ih (i + 1) j s (by omega) (by omega) hs he
        (fun j' h3 h4 => hbefore j' (by omega) h4)

/-- With an unoccupied slot inside the registry (and, when the kernel heap is in use, the
heap serving the frame-storage request), `allocate_share_object` hands out a slot. -/
theorem allocate_found (cfg : Config) (k : Kernel)
    (hslot : ∃ (j : Nat) (s : Share), j < k.MAX_SHARES ∧ k.shares[j]? = some s ∧ s.empty ≠ 0)
    (hheap : cfg.USE_KHEAP = 1 → ∃ rest, k.heap = true :: rest) :
    ∃ (j : Nat) (ka : Kernel), allocate_share_object cfg k = .ok ((j : Int), some j, ka) := by
  classical
  have hex : ∃ j : Nat, ∃ s : Share, k.shares[j]? = some s ∧ s.empty ≠ 0 := by
    obtain ⟨j, s, _, hs, he⟩ := hslot
    exact ⟨j, s, hs, he⟩
  obtain ⟨j0, s0, hj0, hs0, he0⟩ := hslot
  obtain ⟨s, hs, he⟩ := Nat.find_spec hex
  have hle : Nat.find hex ≤ j0 := Nat.find_min' hex ⟨s0, hs0, he0⟩
  have hlen : j0 < k.shares.length := (List.getElem?_eq_some.mp hs0).1
  have hbefore : ∀ j', j' < Nat.find hex → ∃ s', k.shares[j']? = some s' ∧ s'.empty = 0 := by
    intro j' hj'
    have hlt : j' < k.shares.length := by omega
    refine ⟨k.shares[j'], List.getElem?_eq_getElem hlt, ?_⟩
    by_contra hc
    exact Nat.find_min hex hj' ⟨k.shares[j'], List.getElem?_eq_getElem hlt, hc⟩
  have hscan := scan_first k.shares k.MAX_SHARES 0 (Nat.find hex) s (Nat.zero_le _) (by omega)
    hs he (fun j' _ h2 => hbefore j' h2)
  refine ⟨Nat.find hex, ?_⟩
  simp only [allocate_share_object, hscan, allocate_share_object_take, hs]
  by_cases hk : cfg.USE_KHEAP = 1
  · obtain ⟨rest, hrest⟩ := hheap hk
    simp only [hk, if_true, kheap_request, hrest]
    exact ⟨_, rfl⟩
  · simp only [hk, if_false]
    exact ⟨_, rfl⟩

/-- C8, on the code: `createSharedObject` does not handle a failing `allocate_frame`. From a
registry with room for the new key, when the free list has fewer frames than the request has
pages, the call still returns a region id (no error); the slot stays occupied and a lookup
of `(owner, name)` finds it; every `map_frame` call of the loop stays on record, the one for
the first failing page with a NULL frame; and the frames taken before the failure are not
given back. -/
theorem create_ignores_frame_failure (cfg : Config) (k : Kernel) (o : Int) (n : List Nat)
    (sz w va : Nat)
    (hX : cfg.E_SHARED_MEM_NOT_EXISTS < 0) (hN : cfg.E_NO_SHARE < 0)
    (hnew : ∀ j, j < k.MAX_SHARES → ∃ s, k.shares[j]? = some s ∧ ¬ s.holds o n)
    (hslot : ∃ (j : Nat) (s : Share), j < k.MAX_SHARES ∧ k.shares[j]? = some s ∧ s.empty ≠ 0)
    (hheap : cfg.USE_KHEAP = 1 → ∃ rest, k.heap = true :: rest)
    (hfit : n.length + 1 ≤ cfg.NAME_SIZE)
    (hshort : k.freeFrames.length < ROUNDUP sz PAGE_SIZE / PAGE_SIZE) :
    ∃ (j : Nat) (k1 : Kernel) (slot : Share),
      createSharedObject cfg k o n sz w va = .ok ((j : Int), k1) ∧
      k1.shares[j]? = some slot ∧ slot.empty = 0 ∧
      get_share_object_ID cfg k1 o n = .ok (j : Int) ∧
      k1.mappings.length = k.mappings.length + ROUNDUP sz PAGE_SIZE / PAGE_SIZE ∧
      k1.mappings[k.mappings.length + k.freeFrames.length]? =
        some { dir := k.curenv, frame := none,
               va := (va + k.freeFrames.length * PAGE_SIZE) % 2 ^ 32,
               perm := cfg.PERM_WRITEABLE ||| cfg.PERM_USER } ∧
      k1.freeFrames = [] := by
  have hl : get_share_object_ID cfg k o n = .ok cfg.E_SHARED_MEM_NOT_EXISTS :=
    lookup_loop_none cfg k.shares o n k.MAX_SHARES 0 (fun j _ hj => hnew j (by omega))
  obtain ⟨j, ka, ha⟩ := allocate_found cfg k hslot hheap
  obtain ⟨_, hlen, _⟩ := allocate_some cfg k ka j j ha
  have hs : ka.shares[j]? = some ka.shares[j] := List.getElem?_eq_getElem hlen
  have hne : (j : Int) ≠ cfg.E_NO_SHARE := by omega
  have hcr := create_eq cfg k ka o n sz w va j j ka.shares[j] hl ha hne hs hfit
  have hc := created_of_alloc cfg k ka o n sz w va j j ka.shares[j] hl ha hs hfit
  obtain ⟨_, _, hlook⟩ := lookup_after_create cfg k _ o n sz w va j _ hX hc
  refine ⟨j, _, _, hcr, hc.slot, hc.occupied, ?_, ?_, ?_, ?_⟩
  · have := hlook k.curenv
    rw [← hc.env] at this
    exact this
  · rw [hc.maps]; simp [createMappings]
  · rw [hc.maps, List.getElem?_append_right (by omega), Nat.add_sub_cancel_left,
      createMappings_getElem cfg _ va _ _ _ hshort, List.getElem?_eq_none (le_refl _)]
  · rw [hc.frames]
    exact List.drop_eq_nil_of_le (by omega)

/-- A one-page create with no free frame returns a region id and leaves the region behind. -/
theorem create_ignores_frame_failure_witness :
    ∃ (j : Nat) (k1 : Kernel) (slot : Share),
      createSharedObject sampleConfig noFrames 7 buf 4096 0 0x1000 = .ok ((j : Int), k1) ∧
      k1.shares[j]? = some slot ∧ slot.empty = 0 ∧
      get_share_object_ID sampleConfig k1 7 buf = .ok (j : Int) ∧
      k1.mappings.length = noFrames.mappings.length + ROUNDUP 4096 PAGE_SIZE / PAGE_SIZE ∧
      k1.mappings[noFrames.mappings.length + noFrames.freeFrames.length]? =
        some { dir := noFrames.curenv, frame := none,
               va := (0x1000 + noFrames.freeFrames.length * PAGE_SIZE) % 2 ^ 32,
               perm := sampleConfig.PERM_WRITEABLE ||| sampleConfig.PERM_USER } ∧
      k1.freeFrames = [] :=
  create_ignores_frame_failure sampleConfig noFrames 7 buf 4096 0 0x1000 (by decide) (by decide)
    (fun j hj => by
      have hj2 : j < 2 := hj
      interval_cases j
      · exact ⟨_, rfl, by decide⟩
      · exact ⟨_, rfl, by decide⟩)
    ⟨0, _, by decide, rfl, by decide⟩ (fun h => absurd h (by decide)) (by decide) (by decide)

/-! Lookup, lookup-size and get on a missing region -/

theorem slot_exists (k : Kernel) (hlen : k.MAX_SHARES ≤ k.shares.length) (i : Nat)
    (hi : i < k.MAX_SHARES) : ∃ s, k.shares[i]? = some s := by
  have hlt : i < k.shares.length := by omega
  exact ⟨k.shares[i], List.getElem?_eq_getElem hlt⟩

theorem lookup_none_of_no_match (cfg : Config) (k : Kernel) (o : Int) (n : List Nat)
    (hlen : k.MAX_SHARES ≤ k.shares.length)
    (hnone : ∀ i s, i < k.MAX_SHARES → k.shares[i]? = some s → ¬ s.holds o n) :
    get_share_object_ID cfg k o n = .ok cfg.E_SHARED_MEM_NOT_EXISTS := by
  apply lookup_loop_none
  intro j _ hj
  obtain ⟨s, hs⟩ := slot_exists k hlen j (by omega)
  exact ⟨s, hs, hnone j s (by omega) hs⟩

/-- C13. Get on a missing region: in a registry whose table holds its `MAX_SHARES` slots,
when no occupied slot carries `(owner, name)`, `getSharedObject(owner, name, va)` returns
`E_SHARED_MEM_NOT_EXISTS` and the whole kernel state (registry, mappings, frame reference
counts) is the state before the call. -/
theorem get_missing_region (cfg : Config) (k : Kernel) (o : Int) (n : List Nat) (va : Nat)
    (hlen : k.MAX_SHARES ≤ k.shares.length)
    (hnone : ∀ i s, i < k.MAX_SHARES → k.shares[i]? = some s → ¬ s.holds o n) :
    getSharedObject cfg k o n va = .ok (cfg.E_SHARED_MEM_NOT_EXISTS, k) := by
  simp [getSharedObject, lookup_none_of_no_match cfg k o n hlen hnone]

/-- C14. Find: in a registry whose table holds its `MAX_SHARES` slots (error code
negative), `get_share_object_ID(owner, name)` always returns; it returns the index `i`
exactly when `i` is the smallest index below `MAX_SHARES` whose slot is occupied and carries
the owner and the name; and it returns `E_SHARED_MEM_NOT_EXISTS` exactly when no slot below
`MAX_SHARES` does. The function computes its result from the state and has no state to
return: it writes to neither `shares` nor `MAX_SHARES`. -/
theorem find_first_match (cfg : Config) (k : Kernel) (o : Int) (n : List Nat)
    (hX : cfg.E_SHARED_MEM_NOT_EXISTS < 0) (hlen : k.MAX_SHARES ≤ k.shares.length) :
    (∃ r, get_share_object_ID cfg k o n = .ok r) ∧
    (∀ i : Nat, get_share_object_ID cfg k o n = .ok (i : Int) ↔
      (i < k.MAX_SHARES ∧ (∃ s, k.shares[i]? = some s ∧ s.holds o n) ∧
        ∀ j s', j < i → k.shares[j]? = some s' → ¬ s'.holds o n)) ∧
    (get_share_object_ID cfg k o n = .ok cfg.E_SHARED_MEM_NOT_EXISTS ↔
      ∀ i s, i < k.MAX_SHARES → k.shares[i]? = some s → ¬ s.holds o n) := by
  classical
  have hfound : ∀ i : Nat, (i < k.MAX_SHARES ∧ (∃ s, k.shares[i]? = some s ∧ s.holds o n) ∧
      ∀ j s', j < i → k.shares[j]? = some s' → ¬ s'.holds o n) →
      get_share_object_ID cfg k o n = .ok (i : Int) := by
    rintro i ⟨hi, ⟨s, hs, hh⟩, hb⟩
    refine lookup_loop_found cfg k.shares o n k.MAX_SHARES 0 i s (Nat.zero_le _) (by omega)
      hs hh (fun j' _ h2 => ?_)
    obtain ⟨s', hs'⟩ := slot_exists k hlen j' (by omega)
    exact ⟨s', hs', hb j' s' h2 hs'⟩
  have hinv : ∀ r, get_share_object_ID cfg k o n = .ok r →
      (r = cfg.E_SHARED_MEM_NOT_EXISTS ∧
        ∀ i s, i < k.MAX_SHARES → k.shares[i]? = some s → ¬ s.holds o n) ∨
      (∃ i : Nat, r = (i : Int) ∧ i < k.MAX_SHARES ∧
        (∃ s, k.shares[i]? = some s ∧ s.holds o n) ∧
        ∀ j s', j < i → k.shares[j]? = some s' → ¬ s'.holds o n) := by
    intro r hr
    rcases lookup_loop_inv cfg k.shares o n k.MAX_SHARES 0 r hr with ⟨h1, hall⟩ |
      ⟨i, s, _, hi, hri, hs, hh, hb⟩
    · refine Or.inl ⟨h1, fun i s hi hs => ?_⟩
      obtain ⟨s', hs', hn'⟩ := hall i (Nat.zero_le _) (by omega)
      rw [hs] at hs'
      cases hs'
      exact hn'
    · refine Or.inr ⟨i, hri, by omega, ⟨s, hs, hh⟩, fun j s' hj hs' => ?_⟩
      obtain ⟨s'', hs'', hn''⟩ := hb j (Nat.zero_le _) hj
      rw [hs'] at hs''
      cases hs''
      exact hn''
  refine ⟨?_, ?_, ?_⟩
  · by_cases hex : ∃ i : Nat, ∃ s : Share, i < k.MAX_SHARES ∧ k.shares[i]? = some s ∧ s.holds o n
    · obtain ⟨s, hi, hs, hh⟩ := Nat.find_spec hex
      refine ⟨_, hfound (Nat.find hex) ⟨hi, ⟨s, hs, hh⟩, fun j s' hj hs' hh' => ?_⟩⟩
      exact Nat.find_min hex hj ⟨s', by omega, hs', hh'⟩
    · refine ⟨_, lookup_none_of_no_match cfg k o n hlen (fun i s hi hs hh => ?_)⟩
      exact hex ⟨i, s, hi, hs, hh⟩
  · intro i
    refine ⟨fun h => ?_, hfound i⟩
    rcases hinv _ h with ⟨h1, _⟩ | ⟨i', hi', rest⟩
    · omega
    · have : i = i' := by omega
      subst this
      exact rest
  · refine ⟨fun h => ?_, fun h => lookup_none_of_no_match cfg k o n hlen h⟩
    rcases hinv _ h with ⟨_, h2⟩ | ⟨i', hi', _⟩
    · exact h2
    · omega

/-- C15, as stated, fails: the region of owner 7 named `"buf"` has the stored size `2 ^ 31`,
and `getSizeOfSharedObject(7, "buf")` returns `-2 ^ 31`, a negative value that is not the
size. -/
theorem size_returned_negative :
    (bigRegionKernel.shares[0]?).map Share.size = some 2147483648 ∧
    getSizeOfSharedObject sampleConfig bigRegionKernel 7 buf =
      .ok (-2147483648, bigRegionKernel) := by
  exact ⟨rfl, rfl⟩

/-- C15, amended. Lookup-size: in a registry whose table holds its `MAX_SHARES` slots, for
the live region of `(owner, name)` (the first slot that carries the key), when its stored
size is below `2 ^ 31`, `getSizeOfSharedObject(owner, name)` returns a value numerically
equal to that size; when no occupied slot carries the key it returns
`E_SHARED_MEM_NOT_EXISTS`; in both cases the kernel state is unchanged. -/
theorem size_of_region (cfg : Config) (k : Kernel) (o : Int) (n : List Nat)
    (hX : cfg.E_SHARED_MEM_NOT_EXISTS < 0) (hlen : k.MAX_SHARES ≤ k.shares.length) :
    (∀ (i : Nat) (s : Share), i < k.MAX_SHARES → k.shares[i]? = some s → s.holds o n →
      (∀ j s', j < i → k.shares[j]? = some s' → ¬ s'.holds o n) → s.size < 2 ^ 31 →
      getSizeOfSharedObject cfg k o n = .ok ((s.size : Int), k) ∧ (0 : Int) ≤ (s.size : Int) ∧
        (s.size : Int) ≠ cfg.E_SHARED_MEM_NOT_EXISTS) ∧
    ((∀ i s, i < k.MAX_SHARES → k.shares[i]? = some s → ¬ s.holds o n) →
      getSizeOfSharedObject cfg k o n = .ok (cfg.E_SHARED_MEM_NOT_EXISTS, k)) := by
  refine ⟨fun i s hi hs hh hb hsz => ?_, fun hnone => ?_⟩
  · have hl : get_share_object_ID cfg k o n = .ok (i : Int) := by
      refine lookup_loop_found cfg k.shares o n k.MAX_SHARES 0 i s (Nat.zero_le _) (by omega)
        hs hh (fun j' _ h2 => ?_)
      obtain ⟨s', hs'⟩ := slot_exists k hlen j' (by omega)
      exact ⟨s', hs', hb j' s' h2 hs'⟩
    have hne : (i : Int) ≠ cfg.E_SHARED_MEM_NOT_EXISTS := by omega
    have e31 : (2 : Nat) ^ 31 = 2147483648 := by norm_num
    have e32 : (2 : Nat) ^ 32 = 4294967296 := by norm_num
    rw [e31] at hsz
    have hmod : s.size % 2 ^ 32 = s.size := by rw [e32]; omega
    have hmodI : (s.size : Int) % 2 ^ 32 = (s.size : Int) :=
      Int.emod_eq_of_lt (by omega) (by norm_num; omega)
    refine ⟨?_, by omega, by omega⟩
    simp only [getSizeOfSharedObject, hl, hne, if_false, Int.toNat_ofNat, hs, hmod, hmodI]
    rw [if_pos (by rw [e31]; exact hsz)]
  · simp [getSizeOfSharedObject, lookup_none_of_no_match cfg k o n hlen hnone]

/-! Release -/

theorem release_frame_registry (k : Kernel) (f : Nat) :
    (release_frame k f).shares = k.shares ∧ (release_frame k f).MAX_SHARES = k.MAX_SHARES ∧
      (release_frame k f).curenv = k.curenv ∧ (release_frame k f).mappings = k.mappings ∧
      (release_frame k f).heap = k.heap :=
  ⟨rfl, rfl, rfl, rfl, rfl⟩

theorem clear_loop_registry (fs : Nat → Option Nat) :
    ∀ (rem p : Nat) (k : Kernel),
      (clear_frames_storage_loop fs rem p k).shares = k.shares ∧
      (clear_frames_storage_loop fs rem p k).MAX_SHARES = k.MAX_SHARES := by
  intro rem
  induction rem with
  | zero => intro p k; exact ⟨rfl, rfl⟩
  | succ rem ih =>
    intro p k
    simp only [clear_frames_storage_loop]
    cases hp : fs p with
    | none => exact ih (p + 1) k
    | some f =>
      obtain ⟨h1, h2⟩ := ih (p + 1) (release_frame k f)
      exact ⟨h1, h2⟩

/-- Clearing a frame storage leaves the registry as it is. -/
theorem clear_frames_storage_registry (k : Kernel) (fs : Nat → Option Nat) :
    (clear_frames_storage k fs).shares = k.shares ∧
      (clear_frames_storage k fs).MAX_SHARES = k.MAX_SHARES := by
  unfold clear_frames_storage
  exact clear_loop_registry fs _ 0 k

theorem clear_loop_empty :
    ∀ (rem p : Nat) (k : Kernel),
      clear_frames_storage_loop (fun _ => none) rem p k = k := by
  intro rem
  induction rem with
  | zero => intro p k; rfl
  | succ rem ih => intro p k; simp only [clear_frames_storage_loop]; exact ih (p + 1) k

/-- Clearing an empty frame storage changes nothing at all. -/
theorem clear_frames_storage_empty (k : Kernel) :
    clear_frames_storage k (fun _ => none) = k := by
  unfold clear_frames_storage
  exact clear_loop_empty _ 0 k

/-- What a returning call of `free_share_object` did to the registry. -/
theorem release_inv (cfg : Config) (k k1 : Kernel) (id : Nat) (r : Int)
    (h : free_share_object cfg k id = .ok (r, k1)) :
    k1.MAX_SHARES = k.MAX_SHARES ∧
      (k1.shares = k.shares ∨ (id < k.MAX_SHARES ∧ k1.shares = k.shares.set id emptySlot)) := by
  unfold free_share_object at h
  by_cases hid : k.MAX_SHARES ≤ id
  · simp only [hid, if_true, Except.ok.injEq, Prod.mk.injEq] at h
    rw [← h.2]
    exact ⟨rfl, Or.inl rfl⟩
  · simp only [hid, if_false] at h
    cases hs : k.shares[id]? with
    | none => simp only [hs] at h; cases h
    | some s =>
      simp only [hs, Except.ok.injEq, Prod.mk.injEq] at h
      obtain ⟨g1, g2⟩ := clear_frames_storage_registry k s.framesStorage
      generalize clear_frames_storage k s.framesStorage = kc at h g1 g2
      rw [← h.2]
      exact ⟨g2, Or.inr ⟨by omega, by simp only [g1]⟩⟩

/-- C16. Release: in a registry whose table holds its `MAX_SHARES` slots,
`free_share_object(id)` with `id ≥ MAX_SHARES` returns `E_SHARED_MEM_NOT_EXISTS` and leaves
the state unchanged; with `id < MAX_SHARES` it returns 0, afterwards slot `id` is zeroed and
marked unoccupied (`emptySlot`) and every other slot and `MAX_SHARES` are unchanged; and on
a slot that is already zeroed and unoccupied it returns 0 and leaves the whole state
unchanged. -/
theorem release_slot (cfg : Config) (k : Kernel) (id : Nat)
    (hlen : k.MAX_SHARES ≤ k.shares.length) :
    (k.MAX_SHARES ≤ id → free_share_object cfg k id = .ok (cfg.E_SHARED_MEM_NOT_EXISTS, k)) ∧
    (id < k.MAX_SHARES → ∃ k1, free_share_object cfg k id = .ok (0, k1) ∧
      k1.MAX_SHARES = k.MAX_SHARES ∧ k1.shares.length = k.shares.length ∧
      k1.shares[id]? = some emptySlot ∧
      emptySlot.empty = 1 ∧ emptySlot.ownerID = 0 ∧ emptySlot.name = [] ∧ emptySlot.size = 0 ∧
      emptySlot.isWritable = 0 ∧ emptySlot.references = 0 ∧
      (∀ p, emptySlot.framesStorage p = none) ∧
      ∀ j, j ≠ id → k1.shares[j]? = k.shares[j]?) ∧
    (id < k.MAX_SHARES → k.shares[id]? = some emptySlot →
      free_share_object cfg k id = .ok (0, k)) := by
  refine ⟨fun hid => by simp [free_share_object, hid], fun hid => ?_, fun hid hs => ?_⟩
  · have hlt : id < k.shares.length := by omega
    have hnot : ¬ k.MAX_SHARES ≤ id := by omega
    have hs : k.shares[id]? = some k.shares[id] := List.getElem?_eq_getElem hlt
    obtain ⟨g1, g2⟩ := clear_frames_storage_registry k k.shares[id].framesStorage
    have hfree : free_share_object cfg k id = .ok (0,
        { clear_frames_storage k k.shares[id].framesStorage with
          shares :=
            (clear_frames_storage k k.shares[id].framesStorage).shares.set id emptySlot }) := by
      simp only [free_share_object, hnot, if_false, hs]
    rw [hfree]
    generalize clear_frames_storage k k.shares[id].framesStorage = kc at g1 g2
    refine ⟨{ kc with shares := kc.shares.set id emptySlot }, rfl, g2, ?_, ?_,
      rfl, rfl, rfl, rfl, rfl, rfl, fun _ => rfl, fun j hj => ?_⟩
    · simp only [List.length_set, g1]
    · simp only [g1]
      exact List.getElem?_set_self hlt
    · simp only [g1]
      exact List.getElem?_set_ne (Ne.symm hj)
  · have hnot : ¬ k.MAX_SHARES ≤ id := by omega
    have hfs : emptySlot.framesStorage = fun _ => none := rfl
    simp only [free_share_object, hnot, if_false, hs, hfs, clear_frames_storage_empty,
      set_same k.shares id emptySlot hs]

/-- C18. Creator mapping: a `createSharedObject` that returned a region id made, whatever
the `isWritable` argument, exactly `ROUNDUP(size) / PAGE_SIZE` calls of `map_frame`; the
`i`-th is in the calling environment's page directory at `virtual_address + i * PAGE_SIZE`
(32-bit address arithmetic) with permission exactly `PERM_WRITEABLE | PERM_USER`, and its
frame is the one recorded at position `i` of the region's frame storage. -/
theorem create_maps_writable (cfg : Config) (k k1 : Kernel) (o : Int) (n : List Nat)
    (sz w va : Nat) (id : Int) (hE : cfg.E_SHARED_MEM_EXISTS < 0) (hN : cfg.E_NO_SHARE < 0)
    (h : createSharedObject cfg k o n sz w va = .ok (id, k1)) (hid : 0 ≤ id) :
    ∃ slot, k1.shares[id.toNat]? = some slot ∧
      k1.mappings.length = k.mappings.length + ROUNDUP sz PAGE_SIZE / PAGE_SIZE ∧
      (∀ i, i < k.mappings.length → k1.mappings[i]? = k.mappings[i]?) ∧
      ∀ i, i < ROUNDUP sz PAGE_SIZE / PAGE_SIZE →
        k1.mappings[k.mappings.length + i]? =
          some { dir := k.curenv, frame := slot.framesStorage i,
                 va := (va + i * PAGE_SIZE) % 2 ^ 32,
                 perm := cfg.PERM_WRITEABLE ||| cfg.PERM_USER } ∧
        (ROUNDUP sz PAGE_SIZE / PAGE_SIZE ≤ k.freeFrames.length →
          ∃ f, slot.framesStorage i = some f) := by
  obtain ⟨j, s1, hj, hc⟩ := create_ok_facts cfg k k1 o n sz w va id hE hN h hid
  subst hj
  obtain ⟨base, hst, _, _⟩ := hc.storage
  have hfs : ∀ i, i < ROUNDUP sz PAGE_SIZE / PAGE_SIZE →
      s1.framesStorage i = k.freeFrames[i]? := by
    intro i hi
    rw [hst]
    simp only [storageAfter]
    rw [if_pos ⟨Nat.zero_le _, by omega⟩, Nat.sub_zero]
  refine ⟨s1, by rw [Int.toNat_ofNat]; exact hc.slot, by rw [hc.maps]; simp [createMappings],
    fun i hi => by rw [hc.maps, List.getElem?_append_left hi], fun i hi => ⟨?_, fun hfr => ?_⟩⟩
  · rw [hc.maps, List.getElem?_append_right (by omega), Nat.add_sub_cancel_left,
      createMappings_getElem cfg _ va _ _ i hi, hfs i hi]
  · rw [hfs i hi]
    have hlt : i < k.freeFrames.length := by omega
    exact ⟨k.freeFrames[i], List.getElem?_eq_getElem hlt⟩

/-! Growth and initialisation -/

/-- C11, on the code: growth asks `krealloc` for `2 * MAX_SHARES` bytes, not for
`2 * MAX_SHARES` slots. With `USE_KHEAP == 1`, a struct of more than one byte, all `C =
MAX_SHARES` slots occupied and the reallocation served, the new block has room for
`2 * C / sizeof(struct Share) ≤ C` slots only, and the write `shares[C].empty = 0` falls
outside it: the call does not return the index `C`. -/
theorem growth_block_too_small (cfg : Config) (k : Kernel) (rest : List Bool)
    (hk : cfg.USE_KHEAP = 1) (hsz : 1 < cfg.SHARE_SIZE)
    (hfull : ∀ j, j < k.MAX_SHARES → ∃ s, k.shares[j]? = some s ∧ s.empty = 0)
    (hheap : k.heap = true :: rest) :
    (krealloc_block cfg k.shares (2 * k.MAX_SHARES)).length = 2 * k.MAX_SHARES / cfg.SHARE_SIZE ∧
    2 * k.MAX_SHARES / cfg.SHARE_SIZE ≤ k.MAX_SHARES ∧
    allocate_share_object cfg k = .error Fault.outOfBounds := by
  have hscan : allocate_share_object_scan k.shares k.MAX_SHARES 0 = .ok none :=
    scan_full k.shares k.MAX_SHARES 0 (fun j _ hj => hfull j (by omega))
  have hle : 2 * k.MAX_SHARES / cfg.SHARE_SIZE ≤ k.MAX_SHARES := by
    calc 2 * k.MAX_SHARES / cfg.SHARE_SIZE ≤ 2 * k.MAX_SHARES / 2 :=
          Nat.div_le_div_left (by omega) (by omega)
      _ = k.MAX_SHARES := by omega
  have hlen := krealloc_block_length cfg k.shares (2 * k.MAX_SHARES)
  have hnone : (krealloc_block cfg k.shares (2 * k.MAX_SHARES))[k.MAX_SHARES]? = none :=
    List.getElem?_eq_none (by omega)
  refine ⟨hlen, hle, ?_⟩
  simp only [allocate_share_object, hscan, hk, if_true, kheap_request, hheap,
    allocate_share_object_take, hnone]

/-- The growth of the full two-slot sample registry asks for 4 bytes and faults. -/
theorem growth_block_too_small_witness :
    (krealloc_block heapConfig fullKernelHeap.shares (2 * fullKernelHeap.MAX_SHARES)).length =
      2 * fullKernelHeap.MAX_SHARES / heapConfig.SHARE_SIZE ∧
    2 * fullKernelHeap.MAX_SHARES / heapConfig.SHARE_SIZE ≤ fullKernelHeap.MAX_SHARES ∧
    allocate_share_object heapConfig fullKernelHeap = .error Fault.outOfBounds :=
  growth_block_too_small heapConfig fullKernelHeap [true] rfl (by decide)
    (fun j hj => by
      have hj2 : j < 2 := hj
      interval_cases j
      · exact ⟨_, rfl, rfl⟩
      · exact ⟨_, rfl, rfl⟩)
    rfl

/-- Even with a block of `2 * MAX_SHARES` slots, growth initialises none of the new slots:
slot `j` of the block, for `MAX_SHARES ≤ j`, is whatever the heap memory held. -/
theorem growth_slots_uninitialised (cfg : Config) (k : Kernel) (j : Nat)
    (hlen : k.shares.length = k.MAX_SHARES) (h1 : k.MAX_SHARES ≤ j)
    (h2 : j < 2 * k.MAX_SHARES / cfg.SHARE_SIZE) :
    (krealloc_block cfg k.shares (2 * k.MAX_SHARES))[j]? = some (cfg.uninit j) := by
  unfold krealloc_block
  rw [List.getElem?_append_right (by simp; omega)]
  simp only [List.length_take, List.getElem?_map]
  have hmin : min (2 * k.MAX_SHARES / cfg.SHARE_SIZE) k.shares.length = k.MAX_SHARES := by
    omega
  rw [hmin, List.getElem?_range (by omega)]
  simp only [Option.map_some', hlen]
  congr 2
  omega

theorem boot_loop_ok :
    ∀ (rem i : Nat) (sh : List Share), i + rem ≤ sh.length →
      ∃ sh', create_shares_array_loop rem i sh = .ok sh' ∧ sh'.length = sh.length ∧
        (∀ j, i ≤ j → j < i + rem → sh'[j]? = some emptySlot) ∧
        (∀ j, (j < i ∨ i + rem ≤ j) → sh'[j]? = sh[j]?) := by
  intro rem
  induction rem with
  | zero =>
    intro i sh _
    exact ⟨sh, rfl, rfl, fun j h1 h2 => by omega, fun _ _ => rfl⟩
  | succ rem ih =>
    intro i sh hlen
    have hlt : i < sh.length := by omega
    have hs : sh[i]? = some sh[i] := List.getElem?_eq_getElem hlt
    obtain ⟨sh', h1, h2, h3, h4⟩ := ih (i + 1) (sh.set i emptySlot) (by simp; omega)
    refine ⟨sh', by simp only [create_shares_array_loop, hs]; exact h1, by simpa using h2,
      fun j hj1 hj2 => ?_, fun j hj => ?_⟩
    · by_cases hji : j = i
      · subst hji
        rw [h4 j (Or.inl (by omega))]
        exact List.getElem?_set_self hlt
      · exact h3 j (by omega) (by omega)
    · rw [h4 j (by omega)]
      exact List.getElem?_set_ne (by omega)

theorem boot_loop_fault :
    ∀ (rem i : Nat) (sh : List Share), i ≤ sh.length → sh.length < i + rem →
      create_shares_array_loop rem i sh = .error Fault.outOfBounds := by
  intro rem
  induction rem with
  | zero => intro i sh h1 h2; omega
  | succ rem ih =>
    intro i sh h1 h2
    by_cases hlt : i < sh.length
    · have hs : sh[i]? = some sh[i] := List.getElem?_eq_getElem hlt
      simp only [create_shares_array_loop, hs]
      exact ih (i + 1) _ (by simp; omega) (by simp; omega)
    · have hs : sh[i]? = none := List.getElem?_eq_none (by omega)
      simp only [create_shares_array_loop, hs]

theorem boot_loop_inv (rem i : Nat) (sh sh' : List Share)
    (h : create_shares_array_loop rem i sh = .ok sh') (hi : i ≤ sh.length) :
    i + rem ≤ sh.length ∧ sh'.length = sh.length ∧
      (∀ j, i ≤ j → j < i + rem → sh'[j]? = some emptySlot) ∧
      (∀ j, (j < i ∨ i + rem ≤ j) → sh'[j]? = sh[j]?) := by
  by_cases hle : i + rem ≤ sh.length
  · obtain ⟨sh2, h1, h2, h3, h4⟩ := boot_loop_ok rem i sh hle
    rw [h1] at h
    cases h
    exact ⟨hle, h2, h3, h4⟩
  · rw [boot_loop_fault rem i sh hi (by omega)] at h
    cases h

theorem kmalloc_block_slots (cfg : Config) (n : Nat) (hsz : 0 < cfg.SHARE_SIZE)
    (hn : n * cfg.SHARE_SIZE < 2 ^ 32) :
    (kmalloc_block cfg ((n * cfg.SHARE_SIZE) % 2 ^ 32)).length = n ∧
      ∀ j, j < n → (kmalloc_block cfg ((n * cfg.SHARE_SIZE) % 2 ^ 32))[j]? =
        some (cfg.uninit j) := by
  rw [Nat.mod_eq_of_lt hn, kmalloc_block, Nat.mul_div_cancel n hsz]
  refine ⟨by simp, fun j hj => ?_⟩
  simp [List.getElem?_range hj]

/-- C17, on the code: `create_shares_array(n)` allocates `n` slots but its loop runs over
`MAX_SHARES` slots. With the allocation served (and the byte count `n * sizeof(struct
Share)` a 32-bit value), when `MAX_SHARES ≤ n` the call returns with the slots below
`MAX_SHARES` zeroed and marked unoccupied and the slots `MAX_SHARES .. n - 1` skipped, left
as the heap memory was; when `n < MAX_SHARES` the loop writes past the end of the table and
the call does not return. Exactly the `n` slots are initialised only when
`n = MAX_SHARES`. -/
theorem boot_loop_bound_is_MAX_SHARES (cfg : Config) (k : Kernel) (n : Nat) (rest : List Bool)
    (hsz : 0 < cfg.SHARE_SIZE) (hn : n * cfg.SHARE_SIZE < 2 ^ 32)
    (hheap : k.heap = true :: rest) :
    (k.MAX_SHARES ≤ n → ∃ k1, create_shares_array cfg k n = .ok k1 ∧
      k1.MAX_SHARES = k.MAX_SHARES ∧ k1.shares.length = n ∧
      (∀ j, j < k.MAX_SHARES → k1.shares[j]? = some emptySlot) ∧
      (∀ j, k.MAX_SHARES ≤ j → j < n → k1.shares[j]? = some (cfg.uninit j))) ∧
    (n < k.MAX_SHARES → create_shares_array cfg k n = .error Fault.outOfBounds) := by
  obtain ⟨hlen, hslots⟩ := kmalloc_block_slots cfg n hsz hn
  refine ⟨fun hle => ?_, fun hlt => ?_⟩
  · obtain ⟨sh', h1, h2, h3, h4⟩ := boot_loop_ok k.MAX_SHARES 0
      (kmalloc_block cfg ((n * cfg.SHARE_SIZE) % 2 ^ 32)) (by omega)
    refine ⟨{ k with heap := rest, shares := sh' }, ?_, rfl, by simp only [h2, hlen],
      fun j hj => h3 j (Nat.zero_le _) (by omega), fun j hj1 hj2 => ?_⟩
    · simp only [create_shares_array, kheap_request, hheap, h1]
    · simp only
      rw [h4 j (Or.inr (by omega))]
      exact hslots j hj2
  · have := boot_loop_fault k.MAX_SHARES 0
      (kmalloc_block cfg ((n * cfg.SHARE_SIZE) % 2 ^ 32)) (Nat.zero_le _) (by omega)
    simp only [create_shares_array, kheap_request, hheap, this]

/-! Invariants of the reachable registry states -/

/-- With a struct of more than one byte the growth path never hands out a slot, so a slot
handed out is the first unoccupied slot of the unchanged table. -/
theorem allocate_fixed (cfg : Config) (k ka : Kernel) (ret : Int) (j : Nat)
    (hsz : 1 < cfg.SHARE_SIZE)
    (h : allocate_share_object cfg k = .ok (ret, some j, ka)) :
    ka.MAX_SHARES = k.MAX_SHARES ∧ j < k.MAX_SHARES ∧
      (∀ i, i < j → ∃ s', k.shares[i]? = some s' ∧ s'.empty = 0) ∧
      ∃ s, k.shares[j]? = some s ∧ s.empty ≠ 0 ∧
        ka.shares = k.shares.set j (allocatedSlot cfg s) := by
  unfold allocate_share_object at h
  cases hscan : allocate_share_object_scan k.shares k.MAX_SHARES 0 with
  | error e => simp [hscan] at h
  | ok r =>
    obtain ⟨inv1, inv2⟩ := scan_inv k.shares k.MAX_SHARES 0 r hscan
    cases r with
    | some i =>
      simp only [hscan] at h
      obtain ⟨_, h2, s, hs, hsh, hM, _⟩ := take_inv cfg k ka i ret (some j) h
      have hij : j = i := by simpa using h2
      subst hij
      obtain ⟨_, hlt, s1, hs1, he1⟩ := inv1 j rfl
      rw [hs] at hs1
      cases hs1
      refine ⟨hM, by omega, fun i hi => ?_, s, hs, he1, hsh⟩
      exact inv2 i (Nat.zero_le _) (by omega) (fun j0 hj0 => by
        have : j0 = j := by simpa using hj0.symm
        omega)
    | none =>
      simp only [hscan] at h
      by_cases hk : cfg.USE_KHEAP = 1
      · simp only [hk, if_true] at h
        unfold kheap_request at h
        cases hh : k.heap with
        | nil => simp [hh] at h
        | cons b rest =>
          cases b with
          | false => simp [hh] at h
          | true =>
            exfalso
            simp only [hh] at h
            obtain ⟨_, h2, s, hs, _⟩ := take_inv cfg _ ka _ ret (some j) h
            simp only at hs
            have hlen : k.MAX_SHARES < (krealloc_block cfg k.shares (2 * k.MAX_SHARES)).length :=
              (List.getElem?_eq_some.mp hs).1
            rw [krealloc_block_length] at hlen
            have hle : 2 * k.MAX_SHARES / cfg.SHARE_SIZE ≤ 2 * k.MAX_SHARES / 2 :=
              Nat.div_le_div_left (by omega) (by omega)
            omega
      · simp [hk] at h

/-- Uniqueness of keys together with zeroed unoccupied slots. -/
theorem inv_occupy (k k1 : Kernel) (j : Nat) (t : Share)
    (hinv : Unique k ∧ FreeSlotsZeroed k) (hM : k1.MAX_SHARES = k.MAX_SHARES)
    (hoth : ∀ i, i ≠ j → k1.shares[i]? = k.shares[i]?)
    (hj : k1.shares[j]? = some t) (ht : t.empty = 0)
    (hnew : ∀ i s, i < k.MAX_SHARES → k.shares[i]? = some s → ¬ s.holds t.ownerID t.name) :
    Unique k1 ∧ FreeSlotsZeroed k1 := by
  obtain ⟨hu, hz⟩ := hinv
  refine ⟨fun a b s u ha hb hsa hsb hse hue ho hn => ?_, fun i s hi hs he => ?_⟩
  · rw [hM] at ha hb
    by_cases haj : a = j
    · by_cases hbj : b = j
      · omega
      · exfalso
        subst haj
        rw [hj] at hsa
        cases hsa
        rw [hoth b hbj] at hsb
        exact hnew b u hb hsb ⟨hue, ho.symm, hn⟩
    · by_cases hbj : b = j
      · exfalso
        subst hbj
        rw [hj] at hsb
        cases hsb
        rw [hoth a haj] at hsa
        exact hnew a s ha hsa ⟨hse, ho, hn.symm⟩
      · rw [hoth a haj] at hsa
        rw [hoth b hbj] at hsb
        exact hu a b s u ha hb hsa hsb hse hue ho hn
  · rw [hM] at hi
    by_cases hij : i = j
    · subst hij
      rw [hj] at hs
      cases hs
      exact absurd ht he
    · rw [hoth i hij] at hs
      exact hz i s hi hs he

theorem inv_vacate (k k1 : Kernel) (id : Nat)
    (hinv : Unique k ∧ FreeSlotsZeroed k) (hM : k1.MAX_SHARES = k.MAX_SHARES)
    (hsh : k1.shares = k.shares.set id emptySlot) :
    Unique k1 ∧ FreeSlotsZeroed k1 := by
  obtain ⟨hu, hz⟩ := hinv
  have hslot : ∀ (i : Nat) (s : Share), k1.shares[i]? = some s → s.empty = 0 →
      k.shares[i]? = some s := by
    intro i s hs he
    rw [hsh] at hs
    by_cases hi : id = i
    · subst hi
      rw [List.getElem?_set] at hs
      simp only [if_true] at hs
      split at hs
      · cases hs
        exact absurd he (by decide)
      · cases hs
    · rwa [List.getElem?_set_ne hi] at hs
  refine ⟨fun a b s u ha hb hsa hsb hse hue ho hn => ?_, fun i s hi hs he => ?_⟩
  · rw [hM] at ha hb
    exact hu a b s u ha hb (hslot a s hsa hse) (hslot b u hsb hue) hse hue ho hn
  · rw [hM] at hi
    rw [hsh] at hs
    by_cases hid : id = i
    · subst hid
      rw [List.getElem?_set] at hs
      simp only [if_true] at hs
      split at hs
      · cases hs
        exact ⟨rfl, rfl, rfl, rfl, rfl⟩
      · cases hs
    · rw [List.getElem?_set_ne hid] at hs
      exact hz i s hi hs he

theorem inv_same (k k1 : Kernel) (hinv : Unique k ∧ FreeSlotsZeroed k)
    (hM : k1.MAX_SHARES = k.MAX_SHARES) (hsh : k1.shares = k.shares) :
    Unique k1 ∧ FreeSlotsZeroed k1 := by
  unfold Unique FreeSlotsZeroed at *
  rw [hM, hsh]
  exact hinv

theorem inv_lost (k1 : Kernel) (hsh : k1.shares = []) : Unique k1 ∧ FreeSlotsZeroed k1 := by
  unfold Unique FreeSlotsZeroed
  rw [hsh]
  exact ⟨fun a b s u _ _ hsa => by simp at hsa, fun i s _ hs => by simp at hs⟩

theorem inv_boot (cfg : Config) (k0 k : Kernel) (n : Nat)
    (h : create_shares_array cfg k0 n = .ok k) : Unique k ∧ FreeSlotsZeroed k := by
  unfold create_shares_array kheap_request at h
  generalize kmalloc_block cfg ((n * cfg.SHARE_SIZE) % 2 ^ 32) = blk at h
  cases hh : k0.heap with
  | nil => simp [hh] at h
  | cons b rest =>
    cases b with
    | false => simp [hh] at h
    | true =>
      simp only [hh] at h
      cases hl : create_shares_array_loop k0.MAX_SHARES 0 blk with
      | error e => simp [hl] at h
      | ok sh =>
        simp only [hl, Except.ok.injEq] at h
        obtain ⟨_, _, h3, _⟩ := boot_loop_inv _ _ _ _ hl (Nat.zero_le _)
        subst h
        refine ⟨fun a b s u ha _ hsa _ hse => ?_, fun i s hi hs _ => ?_⟩
        · simp only at ha hsa
          rw [h3 a (Nat.zero_le _) (by omega)] at hsa
          cases hsa
          exact absurd hse (by decide)
        · simp only at hi hs
          rw [h3 i (Nat.zero_le _) (by omega)] at hs
          cases hs
          exact ⟨rfl, rfl, rfl, rfl, rfl⟩

theorem inv_create (cfg : Config) (k k1 : Kernel) (o : Int) (n : List Nat) (sz w va : Nat)
    (r : Int) (hX : cfg.E_SHARED_MEM_NOT_EXISTS < 0) (hN : cfg.E_NO_SHARE < 0)
    (hsz : 1 < cfg.SHARE_SIZE) (hinv : Unique k ∧ FreeSlotsZeroed k)
    (h : createSharedObject cfg k o n sz w va = .ok (r, k1)) :
    Unique k1 ∧ FreeSlotsZeroed k1 := by
  rcases create_inv cfg k k1 o n sz w va r hN h with ⟨_, h1⟩ | ⟨_, h1 | h1⟩ |
    ⟨j, ka, s, _, hl, ha, hs, _, hk1⟩
  · rw [h1]; exact hinv
  · rw [h1]; exact hinv
  · exact inv_lost k1 h1.1
  · obtain ⟨hM, hjM, _, s0, hs0, _, hsh⟩ := allocate_fixed cfg k ka r j hsz ha
    have hlen : j < k.shares.length := (List.getElem?_eq_some.mp hs0).1
    have hsa : s = allocatedSlot cfg s0 := by
      rw [hsh, List.getElem?_set_self hlen] at hs
      exact (Option.some.inj hs).symm
    have hempty : s.empty = 0 := by
      rw [hsa]; unfold allocatedSlot; split <;> rfl
    subst hk1
    refine inv_occupy k _ j (createdSlot ka s o n sz w) hinv hM (fun i hi => ?_) ?_ hempty ?_
    · simp only [createdState, hsh, List.set_set]
      exact List.getElem?_set_ne (Ne.symm hi)
    · simp only [createdState, hsh, List.set_set]
      exact List.getElem?_set_self hlen
    · intro i t hi ht hh
      rcases lookup_loop_inv cfg k.shares o n k.MAX_SHARES 0 _ hl with ⟨_, hall⟩ |
        ⟨i', _, _, _, hri, _⟩
      · obtain ⟨t', ht', hn'⟩ := hall i (Nat.zero_le _) (by omega)
        rw [ht] at ht'
        cases ht'
        exact hn' hh
      · omega

/-- Every reachable registry state has unique keys and zeroed unoccupied slots. -/
theorem reachable_inv (cfg : Config) (hX : cfg.E_SHARED_MEM_NOT_EXISTS < 0)
    (hN : cfg.E_NO_SHARE < 0) (hsz : 1 < cfg.SHARE_SIZE) (k : Kernel)
    (hr : Reachable cfg k) : Unique k ∧ FreeSlotsZeroed k := by
  induction hr with
  | boot k0 k n h => exact inv_boot cfg k0 k n h
  | env k e _ ih => exact inv_same k _ ih rfl rfl
  | create k k1 o n sz w va r _ h ih => exact inv_create cfg k k1 o n sz w va r hX hN hsz ih h
  | get k k1 o n va r _ h ih =>
    obtain ⟨_, h1, h2⟩ := get_returns_lookup cfg k k1 o n va r h
    exact inv_same k k1 ih h2 h1
  | release k k1 id r _ h ih =>
    obtain ⟨h1, h2 | ⟨_, h2⟩⟩ := release_inv cfg k k1 id r h
    · exact inv_same k k1 ih h1 h2
    · exact inv_vacate k k1 id ih h1 h2

/-! The claims about reachable states, and the sample runs -/

/-- C12. Uniqueness: in every registry state reachable from `create_shares_array` by
returning calls of `createSharedObject`, `getSharedObject` and `free_share_object` (and
changes of the running environment), no two occupied slots below `MAX_SHARES` carry the
same `(ownerID, name)` pair. The error codes are negative and `struct Share` has more than
one byte. -/
theorem reachable_unique (cfg : Config) (k : Kernel)
    (hX : cfg.E_SHARED_MEM_NOT_EXISTS < 0) (hN : cfg.E_NO_SHARE < 0)
    (hsz : 1 < cfg.SHARE_SIZE) (hr : Reachable cfg k) : Unique k :=
  (reachable_inv cfg hX hN hsz k hr).1

/-- C19. Allocate-slot: in a reachable registry state with an unoccupied slot below
`MAX_SHARES` (and, with the kernel heap in use, the heap serving the frame-storage
request), `allocate_share_object` returns the lowest index `j` whose slot is unoccupied and
stores the address of that slot in `*allocatedObject`; afterwards slot `j` is occupied with
`ownerID`, `name`, `size`, `isWritable` and `references` all zero, and every other slot and
`MAX_SHARES` are unchanged. -/
theorem allocate_lowest_free (cfg : Config) (k : Kernel)
    (hX : cfg.E_SHARED_MEM_NOT_EXISTS < 0) (hN : cfg.E_NO_SHARE < 0)
    (hsz : 1 < cfg.SHARE_SIZE) (hr : Reachable cfg k)
    (hslot : ∃ (j : Nat) (s : Share), j < k.MAX_SHARES ∧ k.shares[j]? = some s ∧ s.empty ≠ 0)
    (hheap : cfg.USE_KHEAP = 1 → ∃ rest, k.heap = true :: rest) :
    ∃ (j : Nat) (ka : Kernel) (s1 : Share),
      allocate_share_object cfg k = .ok ((j : Int), some j, ka) ∧
      j < k.MAX_SHARES ∧ (∃ s, k.shares[j]? = some s ∧ s.empty ≠ 0) ∧
      (∀ i, i < j → ∃ s', k.shares[i]? = some s' ∧ s'.empty = 0) ∧
      ka.shares[j]? = some s1 ∧ s1.empty = 0 ∧
      s1.ownerID = 0 ∧ s1.name = [] ∧ s1.size = 0 ∧ s1.isWritable = 0 ∧ s1.references = 0 ∧
      (∀ i, i ≠ j → ka.shares[i]? = k.shares[i]?) ∧ ka.MAX_SHARES = k.MAX_SHARES := by
  obtain ⟨j, ka, ha⟩ := allocate_found cfg k hslot hheap
  obtain ⟨hM, hjM, hlow, s, hs, he, hsh⟩ := allocate_fixed cfg k ka j j hsz ha
  obtain ⟨z1, z2, z3, z4, z5⟩ := (reachable_inv cfg hX hN hsz k hr).2 j s hjM hs he
  have hlen : j < k.shares.length := (List.getElem?_eq_some.mp hs).1
  have hmeta : (allocatedSlot cfg s).empty = 0 ∧ (allocatedSlot cfg s).ownerID = s.ownerID ∧
      (allocatedSlot cfg s).name = s.name ∧ (allocatedSlot cfg s).size = s.size ∧
      (allocatedSlot cfg s).isWritable = s.isWritable ∧
      (allocatedSlot cfg s).references = s.references := by
    unfold allocatedSlot
    split <;> exact ⟨rfl, rfl, rfl, rfl, rfl, rfl⟩
  obtain ⟨m0, m1, m2, m3, m4, m5⟩ := hmeta
  refine ⟨j, ka, allocatedSlot cfg s, ha, hjM, ⟨s, hs, he⟩, hlow,
    by rw [hsh]; exact List.getElem?_set_self hlen, m0, by rw [m1, z1], by rw [m2, z2],
    by rw [m3, z3], by rw [m4, z4], by rw [m5, z5], fun i hi => ?_, hM⟩
  rw [hsh]
  exact List.getElem?_set_ne (Ne.symm hi)

/-- The sample registry is the state `create_shares_array(2)` leaves with `MAX_SHARES = 2`,
and the states after the sample create and get are reachable from it. -/
theorem sample_reachable :
    Reachable sampleConfig sampleKernel ∧ Reachable sampleConfig afterCreateRO ∧
      Reachable sampleConfig afterGetRO := by
  have h0 : Reachable sampleConfig sampleKernel := Reachable.boot (bootKernel 2) sampleKernel 2 rfl
  have h1 : Reachable sampleConfig afterCreateRO :=
    Reachable.create sampleKernel afterCreateRO 7 buf 4097 0 0x1000 0 h0 rfl
  have h2 : Reachable sampleConfig afterGetRO :=
    Reachable.get { afterCreateRO with curenv := 9 } afterGetRO 7 buf 0x4000 0
      (Reachable.env afterCreateRO 9 h1) rfl
  exact ⟨h0, h1, h2⟩

/-- The slots of the sample registry after the create of `"buf"`. -/
theorem sample_slots :
    afterCreateRO.shares[0]? = some regionRO ∧ afterCreateRO.shares[1]? = some emptySlot ∧
      regionRO.empty = 0 ∧ regionRO.ownerID = 7 ∧ regionRO.name = buf ∧ regionRO.size = 8192 :=
  ⟨rfl, rfl, rfl, rfl, rfl, rfl⟩

/-- After the create of `"buf"` in slot 0, the next slot handed out is slot 1. -/
theorem allocate_lowest_free_witness :
    ∃ (j : Nat) (ka : Kernel) (s1 : Share),
      allocate_share_object sampleConfig afterCreateRO = .ok ((j : Int), some j, ka) ∧
      j < afterCreateRO.MAX_SHARES ∧
      (∃ s, afterCreateRO.shares[j]? = some s ∧ s.empty ≠ 0) ∧
      (∀ i, i < j → ∃ s', afterCreateRO.shares[i]? = some s' ∧ s'.empty = 0) ∧
      ka.shares[j]? = some s1 ∧ s1.empty = 0 ∧
      s1.ownerID = 0 ∧ s1.name = [] ∧ s1.size = 0 ∧ s1.isWritable = 0 ∧ s1.references = 0 ∧
      (∀ i, i ≠ j → ka.shares[i]? = afterCreateRO.shares[i]?) ∧
      ka.MAX_SHARES = afterCreateRO.MAX_SHARES :=
  allocate_lowest_free sampleConfig afterCreateRO (by decide) (by decide) (by decide)
    sample_reachable.2.1 ⟨1, emptySlot, by decide, rfl, by decide⟩
    (fun h => absurd h (by decide))

theorem sample_no_other_key :
    ∀ i s, i < afterCreateRO.MAX_SHARES → afterCreateRO.shares[i]? = some s →
      ¬ s.holds 7 [120] := by
  intro i s hi hs hh
  have hi2 : i < 2 := hi
  interval_cases i
  · rw [sample_slots.1] at hs
    cases hs
    have e : regionRO.name = buf := rfl
    have := hh.2.2
    rw [e] at this
    exact absurd this (by decide)
  · rw [sample_slots.2.1] at hs
    cases hs
    exact absurd hh.1 (by decide)

/-- A get of the unregistered key `(7, "x")` on the sample registry. -/
theorem get_missing_region_witness :
    getSharedObject sampleConfig afterCreateRO 7 [120] 0x4000 =
      .ok (sampleConfig.E_SHARED_MEM_NOT_EXISTS, afterCreateRO) :=
  get_missing_region sampleConfig afterCreateRO 7 [120] 0x4000 (by decide) sample_no_other_key

/-- The lookup of `(7, "buf")` on the sample registry returns slot 0. -/
theorem find_first_match_witness :
    get_share_object_ID sampleConfig afterCreateRO 7 buf = .ok 0 ∧
    (∃ r, get_share_object_ID sampleConfig afterCreateRO 7 buf = .ok r) ∧
    (∀ i : Nat, get_share_object_ID sampleConfig afterCreateRO 7 buf = .ok (i : Int) ↔
      (i < afterCreateRO.MAX_SHARES ∧ (∃ s, afterCreateRO.shares[i]? = some s ∧ s.holds 7 buf) ∧
        ∀ j s', j < i → afterCreateRO.shares[j]? = some s' → ¬ s'.holds 7 buf)) ∧
    (get_share_object_ID sampleConfig afterCreateRO 7 buf =
        .ok sampleConfig.E_SHARED_MEM_NOT_EXISTS ↔
      ∀ i s, i < afterCreateRO.MAX_SHARES → afterCreateRO.shares[i]? = some s →
        ¬ s.holds 7 buf) :=
  ⟨rfl, find_first_match sampleConfig afterCreateRO 7 buf (by decide) (by decide)⟩

/-- The size of the sample region is returned as 8192; the unregistered key `(7, "x")` gives
the error code. -/
theorem size_of_region_witness :
    getSizeOfSharedObject sampleConfig afterCreateRO 7 buf = .ok (((8192 : Nat) : Int), afterCreateRO) ∧
    getSizeOfSharedObject sampleConfig afterCreateRO 7 [120] =
      .ok (sampleConfig.E_SHARED_MEM_NOT_EXISTS, afterCreateRO) :=
  have t := size_of_region sampleConfig afterCreateRO 7 buf (by decide) (by decide)
  have u := size_of_region sampleConfig afterCreateRO 7 [120] (by decide) (by decide)
  ⟨(t.1 0 regionRO (by decide) rfl ⟨rfl, rfl, rfl⟩ (fun j s' hj => by omega) (by decide)).1,
    u.2 sample_no_other_key⟩

/-- A region of `2 ^ 31` bytes is one owner 7 can create: the create returns id 0, stores
that size, and `getSizeOfSharedObject` then returns `-2 ^ 31`. -/
theorem size_two_pow_31_created :
    ∃ k1, createSharedObject sampleConfig sampleKernel 7 buf 2147483648 0 0x1000 = .ok (0, k1) ∧
      (k1.shares[0]?).map Share.size = some 2147483648 ∧
      getSizeOfSharedObject sampleConfig k1 7 buf = .ok (-2147483648, k1) := by
  have hl : get_share_object_ID sampleConfig sampleKernel 7 buf =
      .ok sampleConfig.E_SHARED_MEM_NOT_EXISTS := rfl
  have ha : allocate_share_object sampleConfig sampleKernel =
      .ok ((0 : Nat), some 0, stateAfter (match allocate_share_object sampleConfig sampleKernel with
        | .ok (r, _, ka) => .ok (r, ka)
        | .error e => .error e) sampleKernel) := rfl
  generalize stateAfter (match allocate_share_object sampleConfig sampleKernel with
        | .ok (r, _, ka) => .ok (r, ka)
        | .error e => .error e) sampleKernel = ka at ha
  obtain ⟨_, hlen, _⟩ := allocate_some sampleConfig sampleKernel ka _ 0 ha
  have hs : ka.shares[0]? = some ka.shares[0] := List.getElem?_eq_getElem hlen
  have hcr := create_eq sampleConfig sampleKernel ka 7 buf 2147483648 0 0x1000 _ 0
    ka.shares[0] hl ha (by decide) hs (by decide)
  have hc := created_of_alloc sampleConfig sampleKernel ka 7 buf 2147483648 0 0x1000 _ 0
    ka.shares[0] hl ha hs (by decide)
  generalize createdState sampleConfig ka sampleKernel.curenv 0 ka.shares[0] 7 buf 2147483648 0
    0x1000 = k1 at hcr hc
  have hlook : get_share_object_ID sampleConfig k1 7 buf = .ok ((0 : Nat) : Int) :=
    (lookup_after_create sampleConfig sampleKernel k1 7 buf 2147483648 0 0x1000 0 _
      (by decide) hc).2.2 k1.curenv
  have hsize : ROUNDUP 2147483648 PAGE_SIZE = 2147483648 := by decide
  refine ⟨k1, hcr, ?_, ?_⟩
  · rw [hc.slot]
    simp only [Option.map_some']
    rw [hc.sized, hsize]
  · have hne : ((0 : Nat) : Int) ≠ sampleConfig.E_SHARED_MEM_NOT_EXISTS := by decide
    simp only [getSizeOfSharedObject, hlook, hne, if_false, Int.toNat_ofNat, hc.slot, hc.sized,
      hsize]
    rfl

/-- Release on the sample registry: index 5 is out of range, slot 0 is zeroed, and
releasing the already unoccupied slot 1 changes nothing. -/
theorem release_slot_witness :
    free_share_object sampleConfig afterCreateRO 5 =
      .ok (sampleConfig.E_SHARED_MEM_NOT_EXISTS, afterCreateRO) ∧
    (∃ k1, free_share_object sampleConfig afterCreateRO 0 = .ok (0, k1) ∧
      k1.MAX_SHARES = afterCreateRO.MAX_SHARES ∧
      k1.shares.length = afterCreateRO.shares.length ∧
      k1.shares[0]? = some emptySlot ∧
      emptySlot.empty = 1 ∧ emptySlot.ownerID = 0 ∧ emptySlot.name = [] ∧ emptySlot.size = 0 ∧
      emptySlot.isWritable = 0 ∧ emptySlot.references = 0 ∧
      (∀ p, emptySlot.framesStorage p = none) ∧
      ∀ j, j ≠ 0 → k1.shares[j]? = afterCreateRO.shares[j]?) ∧
    free_share_object sampleConfig afterCreateRO 1 = .ok (0, afterCreateRO) :=
  ⟨(release_slot sampleConfig afterCreateRO 5 (by decide)).1 (by decide),
   (release_slot sampleConfig afterCreateRO 0 (by decide)).2.1 (by decide),
   (release_slot sampleConfig afterCreateRO 1 (by decide)).2.2 (by decide) sample_slots.2.1⟩

/-- Boot with `MAX_SHARES = 1` and `n = 2`: slot 1 is skipped and keeps the heap content,
whose `empty` field is 0. Boot with `MAX_SHARES = 3` and `n = 2`: the loop leaves the table
and the call faults. -/
theorem boot_loop_bound_is_MAX_SHARES_witness :
    (∃ k1, create_shares_array sampleConfig (bootKernel 1) 2 = .ok k1 ∧
      k1.MAX_SHARES = (bootKernel 1).MAX_SHARES ∧ k1.shares.length = 2 ∧
      (∀ j, j < (bootKernel 1).MAX_SHARES → k1.shares[j]? = some emptySlot) ∧
      (∀ j, (bootKernel 1).MAX_SHARES ≤ j → j < 2 →
        k1.shares[j]? = some (sampleConfig.uninit j))) ∧
    (sampleConfig.uninit 1).empty = 0 ∧
    create_shares_array sampleConfig (bootKernel 3) 2 = .error Fault.outOfBounds :=
  ⟨(boot_loop_bound_is_MAX_SHARES sampleConfig (bootKernel 1) 2 [] (by decide) (by decide)
      rfl).1 (by decide),
   rfl,
   (boot_loop_bound_is_MAX_SHARES sampleConfig (bootKernel 3) 2 [] (by decide) (by decide)
      rfl).2 (by decide)⟩

/-- The create of the sample region with the flag 1 maps both pages with permission
`2 | 4`. -/
theorem create_maps_writable_witness :
    ∃ slot, afterCreateRW.shares[(0 : Int).toNat]? = some slot ∧
      afterCreateRW.mappings.length =
        sampleKernel.mappings.length + ROUNDUP 4097 PAGE_SIZE / PAGE_SIZE ∧
      (∀ i, i < sampleKernel.mappings.length →
        afterCreateRW.mappings[i]? = sampleKernel.mappings[i]?) ∧
      ∀ i, i < ROUNDUP 4097 PAGE_SIZE / PAGE_SIZE →
        afterCreateRW.mappings[sampleKernel.mappings.length + i]? =
          some { dir := sampleKernel.curenv, frame := slot.framesStorage i,
                 va := (0x1000 + i * PAGE_SIZE) % 2 ^ 32,
                 perm := sampleConfig.PERM_WRITEABLE ||| sampleConfig.PERM_USER } ∧
        (ROUNDUP 4097 PAGE_SIZE / PAGE_SIZE ≤ sampleKernel.freeFrames.length →
          ∃ f, slot.framesStorage i = some f) :=
  create_maps_writable sampleConfig sampleKernel afterCreateRW 7 buf 4097 1 0x1000 0
    (by decide) (by decide) rfl (by decide)

/-! The number of frames a create records -/

theorem framesRecorded_full (fs : Nat → Option Nat) :
    ∀ (N : Nat), (∀ p, p < N → ∃ f, fs p = some f) → framesRecorded fs N = N := by
  intro N
  induction N with
  | zero => intro _; rfl
  | succ N ih =>
    intro h
    obtain ⟨f, hf⟩ := h N (by omega)
    simp only [framesRecorded, hf, Option.isSome_some, if_true]
    rw [ih (fun p hp => h p (by omega))]

theorem framesRecorded_beyond (fs : Nat → Option Nat) (N : Nat)
    (h : ∀ p, N ≤ p → fs p = none) :
    ∀ (d : Nat), framesRecorded fs (N + d) = framesRecorded fs N := by
  intro d
  induction d with
  | zero => rfl
  | succ d ih =>
    rw [← Nat.add_assoc]
    simp only [framesRecorded, h (N + d) (by omega), Option.isSome_none]
    simpa using ih

/-- A storage without frames counts zero frames, whatever the bound. -/
theorem framesRecorded_none (fs : Nat → Option Nat) (h : ∀ p, fs p = none) (B : Nat) :
    framesRecorded fs B = 0 := by
  have := framesRecorded_beyond fs 0 (fun p _ => h p) B
  rw [Nat.zero_add] at this
  rw [this]
  rfl

/-- A rounded size never has more pages than the 32-bit address space. -/
theorem ROUNDUP_pages_le (s : Nat) : ROUNDUP s PAGE_SIZE / PAGE_SIZE ≤ 2 ^ 32 / PAGE_SIZE := by
  apply Nat.div_le_div_right
  unfold ROUNDUP
  have : (s + PAGE_SIZE - 1) % 2 ^ 32 < 2 ^ 32 := Nat.mod_lt _ (by norm_num)
  omega

/-- In every reachable registry state the unoccupied slots have an empty frame storage. -/
theorem reachable_no_frames (cfg : Config) (hN : cfg.E_NO_SHARE < 0)
    (hsz : 1 < cfg.SHARE_SIZE) (k : Kernel) (hr : Reachable cfg k) : FreeSlotsNoFrames k := by
  induction hr with
  | boot k0 k n h =>
    unfold create_shares_array kheap_request at h
    generalize kmalloc_block cfg ((n * cfg.SHARE_SIZE) % 2 ^ 32) = blk at h
    cases hh : k0.heap with
    | nil => simp [hh] at h
    | cons b rest =>
      cases b with
      | false => simp [hh] at h
      | true =>
        simp only [hh] at h
        cases hl : create_shares_array_loop k0.MAX_SHARES 0 blk with
        | error e => simp [hl] at h
        | ok sh =>
          simp only [hl, Except.ok.injEq] at h
          obtain ⟨_, _, h3, _⟩ := boot_loop_inv _ _ _ _ hl (Nat.zero_le _)
          subst h
          intro i s hi hs _ p
          simp only at hi hs
          rw [h3 i (Nat.zero_le _) (by omega)] at hs
          cases hs
          rfl
  | env k e _ ih => exact ih
  | create k k1 o n sz w va r _ h ih =>
    rcases create_inv cfg k k1 o n sz w va r hN h with ⟨_, h1⟩ | ⟨_, h1 | h1⟩ |
      ⟨j, ka, s, _, hl, ha, hs, _, hk1⟩
    · rw [h1]; exact ih
    · rw [h1]; exact ih
    · intro i s _ hs
      rw [h1.1] at hs
      simp at hs
    · obtain ⟨hM, hjM, _, s0, hs0, _, hsh⟩ := allocate_fixed cfg k ka r j hsz ha
      have hlen : j < k.shares.length := (List.getElem?_eq_some.mp hs0).1
      have hsa : s = allocatedSlot cfg s0 := by
        rw [hsh, List.getElem?_set_self hlen] at hs
        exact (Option.some.inj hs).symm
      have hempty : s.empty = 0 := by
        rw [hsa]; unfold allocatedSlot; split <;> rfl
      subst hk1
      intro i t hi ht he
      simp only [createdState, hsh, List.set_set] at hi ht
      by_cases hij : j = i
      · subst hij
        rw [List.getElem?_set_self hlen] at ht
        cases ht
        exact absurd hempty he
      · rw [List.getElem?_set_ne hij] at ht
        rw [hM] at hi
        exact ih i t hi ht he
  | get k k1 o n va r _ h ih =>
    obtain ⟨_, h1, h2⟩ := get_returns_lookup cfg k k1 o n va r h
    unfold FreeSlotsNoFrames at *
    rw [h1, h2]
    exact ih
  | release k k1 id r _ h ih =>
    obtain ⟨h1, h2 | ⟨_, h2⟩⟩ := release_inv cfg k k1 id r h
    · unfold FreeSlotsNoFrames at *
      rw [h1, h2]
      exact ih
    · intro i t hi ht he
      rw [h2] at ht
      rw [h1] at hi
      by_cases hid : id = i
      · subst hid
        rw [List.getElem?_set] at ht
        simp only [if_true] at ht
        split at ht
        · cases ht
          intro p
          rfl
        · cases ht
      · rw [List.getElem?_set_ne hid] at ht
        exact ih i t hi ht he

/-- The sample create without a free frame recorded no frame at all. -/
theorem no_frames_recorded :
    ∀ slot, afterCreateNoFrames.shares[0]? = some slot → ∀ p, slot.framesStorage p = none := by
  intro slot hs p
  obtain ⟨j, s1, hj, hc⟩ := create_ok_facts sampleConfig noFrames afterCreateNoFrames 7 buf 4096
    0 0x1000 0 (by decide) (by decide) rfl (by decide)
  have hj0 : j = 0 := by omega
  subst hj0
  rw [hc.slot] at hs
  cases hs
  obtain ⟨base, hst, _, hb⟩ := hc.storage
  rw [hst, hb (by decide) emptySlot rfl]
  simp [storageAfter, noFrames, emptySlot, Share.zero]

/-- C6, as stated, fails in two ways. A request of `2 ^ 32 - 1` bytes succeeds (region
id 0) and the stored size is 0, below the request, so it is not the least multiple of
`PAGE_SIZE` that is at least the request. And a request of 4096 bytes made while no frame
is free succeeds (region id 0) with a stored size of 4096, one page, while no frame is
recorded for the region: position 0 of its frame storage is NULL, and the storage holds zero
frames (on the page of the region and in the whole storage), not `4096 / PAGE_SIZE = 1`. -/
theorem create_size_claim_fails :
    (createSharedObject sampleConfig sampleKernel 7 buf 4294967295 0 0x1000 =
        .ok (0, afterCreateHuge) ∧
      (afterCreateHuge.shares[0]?).map Share.size = some 0 ∧
      ¬ (∃ slot, afterCreateHuge.shares[0]? = some slot ∧ 4294967295 ≤ slot.size)) ∧
    (createSharedObject sampleConfig noFrames 7 buf 4096 0 0x1000 =
        .ok (0, afterCreateNoFrames) ∧
      (afterCreateNoFrames.shares[0]?).map Share.size = some 4096 ∧
      (afterCreateNoFrames.shares[0]?).map (fun slot => slot.framesStorage 0) = some none ∧
      (afterCreateNoFrames.shares[0]?).map
        (fun slot => framesRecorded slot.framesStorage (slot.size / PAGE_SIZE)) = some 0 ∧
      ¬ (∃ slot, afterCreateNoFrames.shares[0]? = some slot ∧
          framesRecorded slot.framesStorage (2 ^ 32 / PAGE_SIZE) = slot.size / PAGE_SIZE)) := by
  refine ⟨⟨rfl, rfl, ?_⟩, rfl, rfl, rfl, rfl, ?_⟩
  · rintro ⟨slot, hs, hle⟩
    have e : (afterCreateHuge.shares[0]?).map Share.size = some 0 := rfl
    rw [hs] at e
    simp only [Option.map_some', Option.some.injEq] at e
    omega
  · rintro ⟨slot, hs, hcount⟩
    have e : (afterCreateNoFrames.shares[0]?).map Share.size = some 4096 := rfl
    rw [framesRecorded_none slot.framesStorage (no_frames_recorded slot hs)] at hcount
    rw [hs] at e
    simp only [Option.map_some', Option.some.injEq] at e
    rw [e] at hcount
    simp [PAGE_SIZE] at hcount

/-- C6, amended. Size rounding: for every requested size `s ≤ 2 ^ 32 - PAGE_SIZE`, after a
`createSharedObject` that returned a region id the region's stored size is the least
multiple of `PAGE_SIZE` that is at least `s`; and when `allocate_frame` had a frame for
every page of the call (the free list held at least `size / PAGE_SIZE` frames), the number
of frames recorded for the region is that size divided by `PAGE_SIZE`: each of the
positions `0 .. size / PAGE_SIZE - 1` of the region's frame storage holds a frame (the next
one of the free list), which makes `size / PAGE_SIZE` frames on the pages of the region,
and `size / PAGE_SIZE` frames in the whole storage (one position per page of the 32-bit
address space) when the storage is fresh (kernel heap in use) or the call was made in a
reachable registry state. What a create records after `allocate_frame` failed is left out
here. The error codes are negative. -/
theorem create_size_rounded (cfg : Config) (k k1 : Kernel) (o : Int) (n : List Nat)
    (s w va : Nat) (id : Int) (hE : cfg.E_SHARED_MEM_EXISTS < 0) (hN : cfg.E_NO_SHARE < 0)
    (hs : s ≤ 2 ^ 32 - PAGE_SIZE)
    (h : createSharedObject cfg k o n s w va = .ok (id, k1)) (hid : 0 ≤ id) :
    ∃ slot, k1.shares[id.toNat]? = some slot ∧
      PAGE_SIZE ∣ slot.size ∧ s ≤ slot.size ∧
      (∀ m, PAGE_SIZE ∣ m → s ≤ m → slot.size ≤ m) ∧
      (slot.size / PAGE_SIZE ≤ k.freeFrames.length →
        (∀ p, p < slot.size / PAGE_SIZE →
          ∃ f, k.freeFrames[p]? = some f ∧ slot.framesStorage p = some f) ∧
        framesRecorded slot.framesStorage (slot.size / PAGE_SIZE) = slot.size / PAGE_SIZE ∧
        ((cfg.USE_KHEAP = 1 ∨ (1 < cfg.SHARE_SIZE ∧ Reachable cfg k)) →
          (∀ p, slot.size / PAGE_SIZE ≤ p → slot.framesStorage p = none) ∧
          framesRecorded slot.framesStorage (2 ^ 32 / PAGE_SIZE) = slot.size / PAGE_SIZE)) := by
  rcases create_inv cfg k k1 o n s w va id hN h with ⟨h1, _⟩ | ⟨h1, _⟩ |
    ⟨j, ka, sA, hj, hl, ha, hsA, hfit, hk1⟩
  · omega
  · omega
  have hc := created_of_alloc cfg k ka o n s w va id j sA hl ha hsA hfit
  rw [← hk1] at hc
  generalize createdSlot ka sA o n s w = s1 at hc
  subst hj
  obtain ⟨hd, hle, hmin⟩ := ROUNDUP_page s hs
  obtain ⟨base, hst, hb1, hb2⟩ := hc.storage
  have hpages := ROUNDUP_pages_le s
  rw [← hc.sized] at hpages
  have hfs : ∀ p, p < s1.size / PAGE_SIZE → s1.framesStorage p = k.freeFrames[p]? := by
    intro p hp
    rw [hc.sized] at hp
    rw [hst]
    simp only [storageAfter]
    rw [if_pos ⟨Nat.zero_le _, by omega⟩, Nat.sub_zero]
  refine ⟨s1, by rw [Int.toNat_ofNat]; exact hc.slot, by rw [hc.sized]; exact hd,
    by rw [hc.sized]; exact hle, by rw [hc.sized]; exact hmin, fun hlen => ?_⟩
  have hall : ∀ p, p < s1.size / PAGE_SIZE →
      ∃ f, k.freeFrames[p]? = some f ∧ s1.framesStorage p = some f := by
    intro p hp
    have hlt : p < k.freeFrames.length := by omega
    refine ⟨k.freeFrames[p], List.getElem?_eq_getElem hlt, ?_⟩
    rw [hfs p hp]
    exact List.getElem?_eq_getElem hlt
  refine ⟨hall, framesRecorded_full _ _ (fun p hp => ?_), fun hfresh => ?_⟩
  · obtain ⟨f, _, hf⟩ := hall p hp
    exact ⟨f, hf⟩
  · have hbase : ∀ p, base p = none := by
      intro p
      by_cases hk : cfg.USE_KHEAP = 1
      · rw [hb1 hk]
      · rcases hfresh with hk1 | ⟨hsz, hr⟩
        · exact absurd hk1 hk
        · obtain ⟨_, hjM, _, s0, hs0, he, _⟩ := allocate_fixed cfg k ka j j hsz ha
          rw [hb2 hk s0 hs0]
          exact reachable_no_frames cfg hN hsz k hr j s0 hjM hs0 he p
    have hbeyond : ∀ p, s1.size / PAGE_SIZE ≤ p → s1.framesStorage p = none := by
      intro p hp
      rw [hc.sized] at hp
      rw [hst]
      simp only [storageAfter]
      rw [if_neg (by omega)]
      exact hbase p
    refine ⟨hbeyond, ?_⟩
    have hcount := framesRecorded_beyond s1.framesStorage (s1.size / PAGE_SIZE) hbeyond
      (2 ^ 32 / PAGE_SIZE - s1.size / PAGE_SIZE)
    rw [Nat.add_sub_cancel' hpages] at hcount
    rw [hcount]
    exact framesRecorded_full _ _ (fun p hp => by
      obtain ⟨f, _, hf⟩ := hall p hp
      exact ⟨f, hf⟩)

/-- A request of 4097 bytes in the booted sample registry, which has three free frames: the
region is stored with 8192 bytes, the two frames 100 and 101 of the free list are recorded
on its two pages, and its whole frame storage holds two frames. -/
theorem create_size_rounded_witness :
    (∃ slot, afterCreateRO.shares[(0 : Int).toNat]? = some slot ∧
      PAGE_SIZE ∣ slot.size ∧ 4097 ≤ slot.size ∧
      (∀ m, PAGE_SIZE ∣ m → 4097 ≤ m → slot.size ≤ m) ∧
      (slot.size / PAGE_SIZE ≤ sampleKernel.freeFrames.length →
        (∀ p, p < slot.size / PAGE_SIZE →
          ∃ f, sampleKernel.freeFrames[p]? = some f ∧ slot.framesStorage p = some f) ∧
        framesRecorded slot.framesStorage (slot.size / PAGE_SIZE) = slot.size / PAGE_SIZE ∧
        ((sampleConfig.USE_KHEAP = 1 ∨
            (1 < sampleConfig.SHARE_SIZE ∧ Reachable sampleConfig sampleKernel)) →
          (∀ p, slot.size / PAGE_SIZE ≤ p → slot.framesStorage p = none) ∧
          framesRecorded slot.framesStorage (2 ^ 32 / PAGE_SIZE) = slot.size / PAGE_SIZE))) ∧
      afterCreateRO.shares[0]? = some regionRO ∧ regionRO.size = 8192 ∧
      regionRO.size / PAGE_SIZE = 2 ∧ sampleKernel.freeFrames.length = 3 ∧
      regionRO.framesStorage 0 = some 100 ∧ regionRO.framesStorage 1 = some 101 ∧
      framesRecorded regionRO.framesStorage 2 = 2 ∧
      (∀ p, 2 ≤ p → regionRO.framesStorage p = none) ∧
      framesRecorded regionRO.framesStorage (2 ^ 32 / PAGE_SIZE) = 2 := by
  have t := create_size_rounded sampleConfig sampleKernel afterCreateRO 7 buf 4097 0 0x1000 0
    (by decide) (by decide) (by decide) rfl (by decide)
  have hpages : regionRO.size / PAGE_SIZE = 2 := rfl
  refine ⟨t, rfl, rfl, hpages, rfl, rfl, rfl, rfl, ?_⟩
  obtain ⟨slot, hslot, _, _, _, hfr⟩ := t
  have e : slot = regionRO := by
    have hr : afterCreateRO.shares[(0 : Int).toNat]? = some regionRO := rfl
    rw [hr] at hslot
    exact (Option.some.inj hslot).symm
  rw [e, hpages] at hfr
  exact (hfr (by decide)).2.2 (Or.inr ⟨by decide, sample_reachable.1⟩)

/-! The sample run with three regions, a rejected duplicate and a release -/

/-- A release of a slot inside the table returns 0 and leaves the table with that slot
zeroed and unoccupied. -/
theorem release_ok (cfg : Config) (k : Kernel) (id : Nat) (s : Share)
    (hid : id < k.MAX_SHARES) (hs : k.shares[id]? = some s) :
    free_share_object cfg k id = .ok (0, stateAfter (free_share_object cfg k id) k) ∧
      (stateAfter (free_share_object cfg k id) k).shares = k.shares.set id emptySlot ∧
      (stateAfter (free_share_object cfg k id) k).MAX_SHARES = k.MAX_SHARES := by
  have e : free_share_object cfg k id = .ok (0, { clear_frames_storage k s.framesStorage with
      shares := (clear_frames_storage k s.framesStorage).shares.set id emptySlot }) := by
    unfold free_share_object
    rw [if_neg (by omega)]
    simp only [hs]
  obtain ⟨g1, g2⟩ := clear_frames_storage_registry k s.framesStorage
  generalize clear_frames_storage k s.framesStorage = kc at e g1 g2
  rw [e]
  simp only [stateAfter]
  exact ⟨trivial, by rw [g1], g2⟩

/-- The sample run: boot with three slots; owner 7 creates `"buf"` (slot 0); a second
create of `"buf"` by owner 7 is rejected with `E_SHARED_MEM_EXISTS` and changes nothing;
environment 9 creates its own `"buf"` (slot 1); owner 7 creates `"x"` (slot 2); environment
9 gets the `"buf"` of owner 7; slot 2 is released. The states before and after the release
are reachable; before it the three slots hold the regions `(7, "buf")`, `(9, "buf")` and
`(7, "x")`, after it slot 2 is unoccupied. -/
theorem sample_run :
    Reachable sampleConfig afterShare ∧ Reachable sampleConfig afterRelease ∧
      create_shares_array sampleConfig (bootKernel 3) 3 = .ok bootedThree ∧
      createSharedObject sampleConfig afterFirst 7 buf 8192 0 0x9000 =
        .ok (sampleConfig.E_SHARED_MEM_EXISTS, afterFirst) ∧
      afterShare.MAX_SHARES = 3 ∧
      afterShare.shares.map (fun s => (s.empty, s.ownerID, s.name)) =
        [(0, 7, buf), (0, 9, buf), (0, 7, nameX)] ∧
      free_share_object sampleConfig afterShare 2 = .ok (0, afterRelease) ∧
      afterRelease.MAX_SHARES = 3 ∧
      afterRelease.shares.map (fun s => (s.empty, s.ownerID, s.name)) =
        [(0, 7, buf), (0, 9, buf), (1, 0, [])] := by
  have h0 : Reachable sampleConfig bootedThree :=
    Reachable.boot (bootKernel 3) bootedThree 3 rfl
  have h1 : Reachable sampleConfig afterFirst :=
    Reachable.create bootedThree afterFirst 7 buf 4096 1 0x1000 0 h0 rfl
  have hdup : createSharedObject sampleConfig afterFirst 7 buf 8192 0 0x9000 =
      .ok (sampleConfig.E_SHARED_MEM_EXISTS, afterFirst) := rfl
  have h1' : Reachable sampleConfig afterFirst :=
    Reachable.create afterFirst afterFirst 7 buf 8192 0 0x9000 _ h1 hdup
  have h2 : Reachable sampleConfig afterSecond :=
    Reachable.create { afterFirst with curenv := 9 } afterSecond 9 buf 4096 0 0x1000 1
      (Reachable.env afterFirst 9 h1') rfl
  have h3 : Reachable sampleConfig afterThird :=
    Reachable.create { afterSecond with curenv := 7 } afterThird 7 nameX 4096 0 0x5000 2
      (Reachable.env afterSecond 7 h2) rfl
  have h4 : Reachable sampleConfig afterShare :=
    Reachable.get { afterThird with curenv := 9 } afterShare 7 buf 0x4000 0
      (Reachable.env afterThird 9 h3) rfl
  obtain ⟨r1, r2, r3⟩ := release_ok sampleConfig afterShare 2
    ((afterShare.shares[2]?).getD Share.zero) (by decide) (by rfl)
  have h5 : Reachable sampleConfig afterRelease :=
    Reachable.release afterShare afterRelease 2 0 h4 r1
  refine ⟨h4, h5, rfl, hdup, rfl, rfl, r1, ?_, ?_⟩
  · exact r3.trans rfl
  · unfold afterRelease
    rw [r2]
    rfl

/-- The sample run from `create_shares_array(3)`: three creates (two of them under the same
name `"buf"` by the owners 7 and 9), a duplicate create of `(7, "buf")` that is rejected, a
get and the release of slot 2. The registry has unique keys at the end of the run, where
slots 0 and 1 hold `(7, "buf")` and `(9, "buf")` and slot 2 is unoccupied again, and before
the release, where all three slots are occupied. -/
theorem reachable_unique_witness :
    (Unique afterRelease ∧ Unique afterShare) ∧
      create_shares_array sampleConfig (bootKernel 3) 3 = .ok bootedThree ∧
      createSharedObject sampleConfig afterFirst 7 buf 8192 0 0x9000 =
        .ok (sampleConfig.E_SHARED_MEM_EXISTS, afterFirst) ∧
      afterShare.MAX_SHARES = 3 ∧
      afterShare.shares.map (fun s => (s.empty, s.ownerID, s.name)) =
        [(0, 7, buf), (0, 9, buf), (0, 7, nameX)] ∧
      free_share_object sampleConfig afterShare 2 = .ok (0, afterRelease) ∧
      afterRelease.MAX_SHARES = 3 ∧
      afterRelease.shares.map (fun s => (s.empty, s.ownerID, s.name)) =
        [(0, 7, buf), (0, 9, buf), (1, 0, [])] :=
  ⟨⟨reachable_unique sampleConfig afterRelease (by decide) (by decide) (by decide)
      sample_run.2.1,
    reachable_unique sampleConfig afterShare (by decide) (by decide) (by decide) sample_run.1⟩,
    sample_run.2.2⟩

end SharedMemory
